import Mathlib

/-!
# wbtn — verification of the spec's claims against the source

Shallow embedding of the wbtn container library (Python) in Lean 4.

Every definition below is translated from the repository's source files:
`wbtn/conversion.py`, `wbtn/_json_data.py`, `wbtn/_managers/_path.py`,
`wbtn/_managers/_connection.py`, `wbtn/_managers/_media.py`.  External
collaborators (the embedded SQLite engine, the OS filesystem, `json` and
`pathlib` from the standard library) are modelled explicitly: filesystem
and statement-execution outcomes enter as oracle inputs, `pathlib` paths
become a component-list model, and the standard `json` codec becomes an
executable serializer/parser pair over an integer-numbered JSON tree.

Conventions: Python `None`-able values become `Option`, raised exceptions
become `Except PyErr`, Python `bytes` becomes `List Nat` (byte values) and
Python `float` an opaque carrier `PyFloat` (no arithmetic on floats occurs
on any modelled code path, only identity).
-/

namespace Wbtn

/-- The exception kinds raised by the modelled code paths.  One constructor
per distinct raise site/armed error of the modelled sources, plus
`external` for errors produced by external collaborators (filesystem,
SQLite) that the code merely propagates. -/
inductive PyErr where
  /-- `WebtoonPathError("Absolute path is not allowed.")` — load side. -/
  | pathAbsoluteLoad
  /-- `WebtoonPathError("Absolute path cannot be stored in the file.")`. -/
  | pathAbsoluteStore
  /-- `WebtoonPathError("Self-contained mode is activated. ...")`. -/
  | pathSelfContained
  /-- `WebtoonPathInitializationError("Webtoon path is not yet initialized.")`. -/
  | pathNotInit
  /-- `WebtoonPathInitializationError("Base path has already been initialized.")`. -/
  | pathAlreadyInit
  /-- `WebtoonPathInitializationError(..., "SUGGESTED_BASE_PATH_ABSOLUTE")`. -/
  | pathSuggestAbsolute
  /-- `WebtoonPathInitializationError(..., "SUGGESTED_BASE_PATH_NOT_CHILD")`. -/
  | pathSuggestNotChild
  /-- `ValueError` raised by `PurePath.relative_to` on a non-subpath. -/
  | pathValueError
  /-- `WebtoonSchemaError`: zero application id on an existing file. -/
  | schemaNotWbtnUninit
  /-- `WebtoonSchemaError("The file is not a WBTN file")`. -/
  | schemaNotWbtn
  /-- `WebtoonSchemaError("Cannot open future file format ...")`. -/
  | schemaFuture
  /-- `WebtoonSchemaError` for a past-major format (same message template). -/
  | schemaPast
  /-- `WebtoonSchemaError(... "(cannot downgrade)")` from the version setter. -/
  | schemaDowngrade
  /-- `WebtoonOpenError("Invalid journal mode for in-memory database: ...")`. -/
  | openBadMemoryJournal
  /-- `WebtoonOpenError("Invalid journal mode: ...")`. -/
  | openBadJournal
  /-- `ValueError("Conversion value is not provided")` in `load_bytes_value`. -/
  | convMissing
  /-- `ValueError("Invalid conversion: ...")` — unknown conversion tag. -/
  | invalidConversion (tag : String)
  /-- `ValueError("Unknown conversion: ...")` in `_get_query`. -/
  | unknownQueryConversion (tag : String)
  /-- `ValueError("Invalid type ... for conversion or unknown conversion ...")`. -/
  | convTypeMismatch
  /-- `ValueError("conversion cannot be provided directly ...")` in `add`. -/
  | convWithData
  /-- `ValueError` / `AttributeError` raised by the handle constructor/accessors. -/
  | valueError (msg : String)
  /-- an error produced by an external collaborator (filesystem, SQLite). -/
  | external (tag : String)
deriving DecidableEq, Repr

/-! ## Path model

`pathlib.Path` is modelled as a flag for absoluteness plus the list of
components (`Path.parts` without the root anchor).  Construction-time
normalization of `pathlib` (dropping `.` components and empty segments) is
assumed to have happened already: component lists never contain `"."` or
`""`; `".."` components are kept, exactly as `pathlib` keeps them.
Symbolic links are not modelled: `Path.resolve()` becomes
"anchor at the working directory and fold `..`/`.` away". -/

structure PPath where
  absolute : Bool
  comps : List String
deriving DecidableEq, Repr

/-- One step of lexical normalization, root-anchored: `..` pops, `.` drops. -/
def normStep (acc : List String) (x : String) : List String :=
  if x = "." then acc
  else if x = ".." then acc.dropLast
  else acc ++ [x]

/-- Lexical normalization of an absolute component list (a `..` at the root
stays at the root, as `Path.resolve` does). -/
def normComps (xs : List String) : List String :=
  xs.foldl normStep []

/-- `Path.resolve()` — make absolute against the working directory `cwd`
(itself absolute) and normalize; symlink resolution is not modelled. -/
def presolve (cwd : PPath) (p : PPath) : PPath :=
  ⟨true, normComps (if p.absolute then p.comps else cwd.comps ++ p.comps)⟩

/-- `xs` is an initial run of `ys` (component-wise). -/
def leads : List String → List String → Bool
  | [], _ => true
  | _ :: _, [] => false
  | x :: xs, y :: ys => x = y && leads xs ys

/-- `PurePath.relative_to`: succeeds exactly when the base's parts lead the
path's parts (anchors included), returning the remaining relative path;
otherwise raises `ValueError`. -/
def relativeTo (p b : PPath) : Except PyErr PPath :=
  if p.absolute = b.absolute ∧ leads b.comps p.comps then
    .ok ⟨false, p.comps.drop b.comps.length⟩
  else
    .error .pathValueError

/-- `Path.__truediv__` (`base / rel`). -/
def pjoin (b r : PPath) : PPath :=
  if r.absolute then r else ⟨b.absolute, b.comps ++ r.comps⟩

/-! ## `WebtoonPathManager` (`wbtn/_managers/_path.py`)

The manager's mutable/class-level configuration becomes `PathMgrState`;
the collaborating context the manager reads (working directory, the
container file's directory from `file_base_path()`, and the
`sys_base_directory` Info entry already decoded by `suggested_base_path()`)
becomes `PathCtx`. -/

structure PathMgrState where
  /-- `_base_path` (already-`resolve`d when set). -/
  basePath : Option PPath
  /-- `convert_absolute`. -/
  convertAbsolute : Bool
  /-- `self_contained`. -/
  selfContained : Bool
  /-- `fallback_base_path`. -/
  fallbackBasePath : Bool
  /-- `auto_initialize_base_path`. -/
  autoInitializeBasePath : Bool
deriving DecidableEq, Repr

structure PathCtx where
  /-- `Path.cwd()`, absolute and normalized. -/
  cwd : PPath
  /-- `file_base_path()`: the container file's own directory (or `cwd` for
  an in-memory connection). -/
  fileBase : PPath
  /-- `suggested_base_path()`: the base directory suggested by the
  container's `sys_base_directory` Info row, decoded to a path; `none` when
  the row is absent or not string-like. -/
  suggested : Option PPath
deriving DecidableEq, Repr

/-- `WebtoonPathManager._get_base_path` (lines 158-182), verbatim:
note that the two `fallback_base_path` branches raise when the flag is
*true* and fall back when it is *false*. -/
def getBasePath (st : PathMgrState) (ctx : PathCtx) (path : Option PPath) :
    Except PyErr PPath :=
  if st.basePath.isSome then .error .pathAlreadyInit
  else
    match path with
    | some p => .ok p
    | none =>
      match ctx.suggested with
      | none => .ok ctx.fileBase
      | some p =>
        if p.absolute then
          if st.fallbackBasePath then .error .pathSuggestAbsolute
          else .ok ctx.fileBase
        else
          match relativeTo (presolve ctx.cwd p) (presolve ctx.cwd ctx.fileBase) with
          | .error _ =>
            if st.fallbackBasePath then .error .pathSuggestNotChild
            else .ok ctx.fileBase
          | .ok _ => .ok p

/-- `initialize_base_path`: `self._base_path = self._get_base_path(path).resolve()`. -/
def initializeBasePath (st : PathMgrState) (ctx : PathCtx) (path : Option PPath) :
    Except PyErr (PPath × PathMgrState) :=
  (getBasePath st ctx path).map fun p =>
    let r := presolve ctx.cwd p
    (r, { st with basePath := some r })

/-- The `base_path` property: self-contained mode always refuses; an unset
base auto-initializes when `auto_initialize_base_path` is on, else raises. -/
def basePathGet (st : PathMgrState) (ctx : PathCtx) :
    Except PyErr (PPath × PathMgrState) :=
  if st.selfContained then .error .pathSelfContained
  else
    match st.basePath with
    | some b => .ok (b, st)
    | none =>
      if st.autoInitializeBasePath then initializeBasePath st ctx none
      else .error .pathNotInit

/-- `dump_str` / `_dump_path`: refuse an absolute input when
`convert_absolute` is off, then store `path.resolve().relative_to(base_path)`
(the input is resolved against the *working directory*, and `relative_to`
raises when the resolved path is not inside the base). -/
def dumpPath (st : PathMgrState) (ctx : PathCtx) (p : PPath) :
    Except PyErr (PPath × PathMgrState) :=
  if p.absolute ∧ ¬st.convertAbsolute then .error .pathAbsoluteStore
  else
    match basePathGet st ctx with
    | .error e => .error e
    | .ok (b, st') =>
      match relativeTo (presolve ctx.cwd p) b with
      | .error e => .error e
      | .ok r => .ok (r, st')

/-- `load_str`: a stored absolute path always fails; otherwise the result is
`base_path / path`. -/
def loadStr (st : PathMgrState) (ctx : PathCtx) (raw : PPath) :
    Except PyErr (PPath × PathMgrState) :=
  if raw.absolute then .error .pathAbsoluteLoad
  else (basePathGet st ctx).map fun bs => (pjoin bs.1 raw, bs.2)

/-! ## `WebtoonConnectionManager` (`wbtn/_managers/_connection.py`)

The SQLite file header (`PRAGMA application_id` / `PRAGMA user_version`) is
the state acted on by `_configure_pragma`.  PRAGMA writes are immediate
(they are not transactional), so the model returns the header state paired
with an optional exception rather than short-circuiting the state away. -/

/-- `SCHEMA_VERSION` from `wbtn/_base.py`. -/
def SCHEMA_VERSION : Nat := 1000

/-- `0x5742544e` — ASCII "WBTN". -/
def APPLICATION_ID : Nat := 0x5742544e

/-- `JOURNAL_MODES` from `wbtn/_base.py`. -/
def JOURNAL_MODES : List String := ["delete", "truncate", "persist", "memory", "wal", "off"]

structure DbHeader where
  /-- `PRAGMA application_id`. -/
  applicationId : Nat
  /-- `PRAGMA user_version`. -/
  userVersion : Nat
deriving DecidableEq, Repr

structure ConnSettings where
  /-- `ConnectionSettings.read_only`. -/
  readOnly : Bool
  /-- `ConnectionSettings.bypass_integrity_check`. -/
  bypass : Bool
  /-- `ConnectionSettings.journal_mode` (already lower-cased, as
  `str(journal_mode).lower()` produces). -/
  journalMode : Option String
deriving DecidableEq, Repr

/-- The two override environment variables read by `_check_user_version`
(`os.getenv` result: `none` when unset). -/
structure Env where
  /-- `WBTN_FORCE_OPEN_FUTURE_FORMAT`. -/
  future : Option String
  /-- `WBTN_FORCE_OPEN_PAST_FORMAT`. -/
  past : Option String
deriving DecidableEq, Repr

/-- The `file_user_version` setter: refuses any downgrade with a
`WebtoonSchemaError`, otherwise writes the version. -/
def setFileUserVersion (h : DbHeader) (v : Nat) : Except PyErr DbHeader :=
  if h.userVersion > v then .error .schemaDowngrade
  else .ok { h with userVersion := v }

/-- `_check_application_id`: only a pre-existing, non-empty target is
checked; a zero marker is corruption, a non-matching nonzero marker is
"not a WBTN file". -/
def checkApplicationId (existed : Bool) (h : DbHeader) : Except PyErr Unit :=
  if existed then
    if h.applicationId = 0 then .error .schemaNotWbtnUninit
    else if APPLICATION_ID ≠ h.applicationId then .error .schemaNotWbtn
    else .ok ()
  else .ok ()

/-- `_check_user_version`: version 0 on an existing store warns and (when
writable) upgrades in place; a stored major above the running major fails
as future format unless `WBTN_FORCE_OPEN_FUTURE_FORMAT` is a string other
than `"0"`; a stored major below fails as past format under the
complementary variable.  Returns the (possibly upgraded) header. -/
def checkUserVersion (existed : Bool) (readOnly : Bool) (env : Env) (h : DbHeader) :
    Except PyErr DbHeader :=
  if existed then
    if h.userVersion = 0 then
      if readOnly then .ok h
      else .ok { h with userVersion := SCHEMA_VERSION }
    else if SCHEMA_VERSION / 1000 < h.userVersion / 1000 ∧ env.future.getD "0" = "0" then
      .error .schemaFuture
    else if SCHEMA_VERSION / 1000 > h.userVersion / 1000 ∧ env.past.getD "0" = "0" then
      .error .schemaPast
    else .ok h
  else .ok h

/-- `_set_journal_mode`: `None` means leave the default; an in-memory
connection only accepts `memory`/`off`; anything outside `JOURNAL_MODES`
is refused. -/
def setJournalMode (inMemory : Bool) (jm : Option String) : Except PyErr Unit :=
  match jm with
  | none => .ok ()
  | some m =>
    if inMemory ∧ ¬(m = "memory" ∨ m = "off") then .error .openBadMemoryJournal
    else if ¬ JOURNAL_MODES.contains m then .error .openBadJournal
    else .ok ()

/-- The write phase of `_configure_pragma` on a writable connection: the
fresh-target marker write (`if not self.existed`), then the version write
— a raw `PRAGMA user_version` under bypass, or the downgrade-checked
setter wrapped in `suppress(WebtoonSchemaError)` otherwise. -/
def markerWrite (existed : Bool) (h : DbHeader) : DbHeader :=
  if ¬existed then { h with applicationId := APPLICATION_ID } else h

def writePhase (existed bypass : Bool) (h : DbHeader) : DbHeader :=
  if bypass then { markerWrite existed h with userVersion := SCHEMA_VERSION }
  else
    match setFileUserVersion (markerWrite existed h) SCHEMA_VERSION with
    | .ok h' => h'
    | .error _ => markerWrite existed h

/-- `_configure_pragma`, acting on the header of a target whose prior
existence is `existed`.  Mirrors the source order: integrity checks unless
bypassed (the zero-version branch already writes), an early return for
read-only connections, then the write phase and the journal mode on a
writable connection.  The result is the final header plus the raised
exception, if any (PRAGMA writes are immediate, so a journal-mode failure
leaves the write phase's effects in place). -/
def configurePragma (existed inMemory : Bool) (s : ConnSettings) (env : Env)
    (h : DbHeader) : DbHeader × Option PyErr :=
  -- integrity checks (skipped under bypass)
  if ¬s.bypass then
    match checkApplicationId existed h with
    | .error e => (h, some e)
    | .ok () =>
      match checkUserVersion existed s.readOnly env h with
      | .error e => (h, some e)
      | .ok h1 =>
        if s.readOnly then (h1, none)
        else
          match setJournalMode inMemory s.journalMode with
          | .error e => (writePhase existed false h1, some e)
          | .ok () => (writePhase existed false h1, none)
  else
    if s.readOnly then (h, none)
    else
      match setJournalMode inMemory s.journalMode with
      | .error e => (writePhase existed true h, some e)
      | .ok () => (writePhase existed true h, none)

/-! ## JSON model (the standard-library `json` collaborator)

`JsonData` serializes with `json.JSONEncoder(ensure_ascii=False,
separators=(",", ":"))` and parses with `json.loads`.  Both are external
standard-library code; they are modelled here as an executable compact
serializer and a recursive-descent parser over a JSON tree.  Modelling
restrictions (stated, not hidden): numeric payloads are integers (float
formatting is outside the model), the parser reads the compact form the
serializer emits (whitespace skipping is not modelled) and decodes
`\uXXXX` escapes as single scalar values (no surrogate pairs — the
encoder only ever emits `\u00XX` for control characters). -/

mutual
inductive J where
  | null : J
  | bool (b : Bool) : J
  | num (n : Int) : J
  | str (s : String) : J
  | arr (xs : JList) : J
  | obj (xs : JObj) : J
deriving Repr

inductive JList where
  | nil : JList
  | cons (hd : J) (tl : JList) : JList
deriving Repr

inductive JObj where
  | nil : JObj
  | cons (k : String) (v : J) (tl : JObj) : JObj
deriving Repr
end

/-- The decimal digit characters, as an explicit table. -/
def digitChar : Nat → Char
  | 0 => '0' | 1 => '1' | 2 => '2' | 3 => '3' | 4 => '4'
  | 5 => '5' | 6 => '6' | 7 => '7' | 8 => '8' | _ => '9'

/-- The lowercase hexadecimal digit characters (as Python's `'\u%04x'`). -/
def hexDigitChar : Nat → Char
  | 0 => '0' | 1 => '1' | 2 => '2' | 3 => '3' | 4 => '4'
  | 5 => '5' | 6 => '6' | 7 => '7' | 8 => '8' | 9 => '9'
  | 10 => 'a' | 11 => 'b' | 12 => 'c' | 13 => 'd' | 14 => 'e' | _ => 'f'

/-- Decimal notation for a natural number (`str(n)` for `n ≥ 0`). -/
def natDumpChars (n : Nat) : List Char :=
  if _h : n < 10 then [digitChar n]
  else natDumpChars (n / 10) ++ [digitChar (n % 10)]
decreasing_by exact Nat.div_lt_self (by omega) (by omega)

/-- Decimal notation for an integer (`str(n)`). -/
def intDumpChars (n : Int) : List Char :=
  if n < 0 then '-' :: natDumpChars n.natAbs else natDumpChars n.toNat

/-- One character of JSON string content, escaped as Python's encoder
escapes it (`ensure_ascii=False`): quote, backslash and the named control
characters get two-character escapes, other control characters become
`\u00XX`, everything else is emitted verbatim. -/
def escChar (c : Char) : List Char :=
  if c = '"' then ['\\', '"']
  else if c = '\\' then ['\\', '\\']
  else if c = Char.ofNat 8 then ['\\', 'b']
  else if c = Char.ofNat 9 then ['\\', 't']
  else if c = Char.ofNat 10 then ['\\', 'n']
  else if c = Char.ofNat 12 then ['\\', 'f']
  else if c = Char.ofNat 13 then ['\\', 'r']
  else if c.toNat < 32 then
    ['\\', 'u', '0', '0', hexDigitChar (c.toNat / 16), hexDigitChar (c.toNat % 16)]
  else [c]

def escape : List Char → List Char
  | [] => []
  | c :: cs => escChar c ++ escape cs

mutual
/-- Compact JSON encoding, character list form (`separators=(",", ":")`). -/
def jdumpChars : J → List Char
  | .null => "null".data
  | .bool true => "true".data
  | .bool false => "false".data
  | .num n => intDumpChars n
  | .str s => '"' :: (escape s.data ++ ['"'])
  | .arr .nil => ['[', ']']
  | .arr (.cons x xs) => '[' :: (jdumpChars x ++ jdumpElems xs ++ [']'])
  | .obj .nil => ['{', '}']
  | .obj (.cons k v xs) =>
    '{' :: ('"' :: (escape k.data ++ ['"', ':'] ++ jdumpChars v ++ jdumpMembers xs ++ ['}']))

def jdumpElems : JList → List Char
  | .nil => []
  | .cons x xs => ',' :: (jdumpChars x ++ jdumpElems xs)

def jdumpMembers : JObj → List Char
  | .nil => []
  | .cons k v xs =>
    ',' :: ('"' :: (escape k.data ++ ['"', ':'] ++ jdumpChars v ++ jdumpMembers xs))
end

/-- `json.dumps(..., ensure_ascii=False, separators=(",", ":"))`. -/
def jdump (j : J) : String := ⟨jdumpChars j⟩

/-- Hexadecimal digit value (both cases, as `json.loads` accepts). -/
def hexVal (c : Char) : Option Nat :=
  if 48 ≤ c.toNat ∧ c.toNat ≤ 57 then some (c.toNat - 48)
  else if 97 ≤ c.toNat ∧ c.toNat ≤ 102 then some (c.toNat - 87)
  else if 65 ≤ c.toNat ∧ c.toNat ≤ 70 then some (c.toNat - 55)
  else none

/-- The single-character escapes accepted after a backslash. -/
def unescChar (e : Char) : Option Char :=
  if e = '"' then some '"'
  else if e = '\\' then some '\\'
  else if e = '/' then some '/'
  else if e = 'b' then some (Char.ofNat 8)
  else if e = 'f' then some (Char.ofNat 12)
  else if e = 'n' then some (Char.ofNat 10)
  else if e = 'r' then some (Char.ofNat 13)
  else if e = 't' then some (Char.ofNat 9)
  else none

/-- Parse JSON string content up to (and consuming) the closing quote,
returning the decoded characters and the remaining input. -/
def parseStrChars : List Char → Option (List Char × List Char)
  | [] => none
  | c :: cs =>
    if c = '"' then some ([], cs)
    else if c = '\\' then
      match cs with
      | [] => none
      | e :: cs' =>
        if e = 'u' then
          match cs' with
          | h1 :: h2 :: h3 :: h4 :: r =>
            (hexVal h1).bind fun a =>
            (hexVal h2).bind fun b =>
            (hexVal h3).bind fun c' =>
            (hexVal h4).bind fun d =>
            let code := a * 4096 + b * 256 + c' * 16 + d
            if code < 55296 ∨ (57343 < code ∧ code < 1114112) then
              (parseStrChars r).map fun p => (Char.ofNat code :: p.1, p.2)
            else none
          | _ => none
        else
          (unescChar e).bind fun u =>
            (parseStrChars cs').map fun p => (u :: p.1, p.2)
    else (parseStrChars cs).map fun p => (c :: p.1, p.2)

/-- Big-endian decimal digit accumulation. -/
def parseNatChars (ds : List Char) : Nat :=
  ds.foldl (fun a c => 10 * a + (c.toNat - 48)) 0

/-- Parse an integer JSON number (`-?[0-9]+` — the modelled numeric
subset). -/
def parseNum (cs : List Char) : Option (J × List Char) :=
  match cs with
  | [] => none
  | c :: rest =>
    if c = '-' then
      if (rest.takeWhile Char.isDigit).isEmpty then none
      else some (.num (-(parseNatChars (rest.takeWhile Char.isDigit) : Int)),
        rest.drop (rest.takeWhile Char.isDigit).length)
    else
      if ((c :: rest).takeWhile Char.isDigit).isEmpty then none
      else some (.num (parseNatChars ((c :: rest).takeWhile Char.isDigit) : Int),
        (c :: rest).drop ((c :: rest).takeWhile Char.isDigit).length)

mutual
/-- Recursive-descent JSON value parser (compact form), with an explicit
recursion budget for the nesting depth. -/
def parseVal : Nat → List Char → Option (J × List Char)
  | 0, _ => none
  | _ + 1, [] => none
  | fuel + 1, c :: rest =>
    if c = 'n' then
      match rest with
      | 'u' :: 'l' :: 'l' :: r => some (.null, r)
      | _ => none
    else if c = 't' then
      match rest with
      | 'r' :: 'u' :: 'e' :: r => some (.bool true, r)
      | _ => none
    else if c = 'f' then
      match rest with
      | 'a' :: 'l' :: 's' :: 'e' :: r => some (.bool false, r)
      | _ => none
    else if c = '"' then
      (parseStrChars rest).map fun p => (.str ⟨p.1⟩, p.2)
    else if c = '[' then
      match rest with
      | [] => none
      | r0 :: rs =>
        if r0 = ']' then some (.arr .nil, rs)
        else
          (parseElems fuel (r0 :: rs)).bind fun p =>
            match p.2 with
            | ']' :: r => some (.arr p.1, r)
            | _ => none
    else if c = '{' then
      match rest with
      | [] => none
      | r0 :: rs =>
        if r0 = '}' then some (.obj .nil, rs)
        else
          (parseMembers fuel (r0 :: rs)).bind fun p =>
            match p.2 with
            | '}' :: r => some (.obj p.1, r)
            | _ => none
    else parseNum (c :: rest)

/-- Comma-separated JSON values; stops before the first non-comma
separator it meets. -/
def parseElems : Nat → List Char → Option (JList × List Char)
  | 0, _ => none
  | fuel + 1, cs =>
    (parseVal fuel cs).bind fun p =>
      match p.2 with
      | ',' :: r => (parseElems fuel r).map fun q => (.cons p.1 q.1, q.2)
      | r => some (.cons p.1 .nil, r)

/-- Comma-separated `"key":value` members. -/
def parseMembers : Nat → List Char → Option (JObj × List Char)
  | 0, _ => none
  | fuel + 1, cs =>
    match cs with
    | '"' :: cs' =>
      (parseStrChars cs').bind fun kp =>
        match kp.2 with
        | ':' :: cs'' =>
          (parseVal fuel cs'').bind fun p =>
            match p.2 with
            | ',' :: r => (parseMembers fuel r).map fun q => (.cons ⟨kp.1⟩ p.1 q.1, q.2)
            | r => some (.cons ⟨kp.1⟩ p.1 .nil, r)
        | _ => none
    | _ => none
end

/-- `json.loads` on the modelled domain: parse one value and require the
input to be fully consumed. -/
def jparse (s : String) : Option J :=
  match parseVal (s.data.length + 1) s.data with
  | some (j, []) => some j
  | _ => none

/-! ### Round trip of the JSON codec -/

/-- The next character of the remaining input, if any, is not a decimal
digit (the boundary a number stops at). -/
def noDigitHead : List Char → Prop
  | [] => True
  | c :: _ => c.isDigit = false

lemma digitChar_spec : ∀ d, d < 10 →
    (digitChar d).isDigit = true ∧ (digitChar d).toNat = 48 + d := by decide

lemma natDumpChars_all_digit (n : Nat) :
    (natDumpChars n).all Char.isDigit = true := by
  induction n using natDumpChars.induct with
  | case1 n h =>
    rw [natDumpChars]
    simp [h, (digitChar_spec n h).1]
  | case2 n h ih =>
    rw [natDumpChars]
    simp only [h, dite_false, List.all_append, ih, Bool.true_and, List.all_cons,
      List.all_nil, Bool.and_true]
    exact (digitChar_spec (n % 10) (Nat.mod_lt n (by omega))).1

lemma natDumpChars_ne_nil (n : Nat) : natDumpChars n ≠ [] := by
  rw [natDumpChars]
  split <;> simp

lemma parseNatChars_natDump (n : Nat) : parseNatChars (natDumpChars n) = n := by
  induction n using natDumpChars.induct with
  | case1 n h =>
    rw [natDumpChars]
    simp only [h, dite_true]
    show 10 * 0 + ((digitChar n).toNat - 48) = n
    rw [(digitChar_spec n h).2]
    omega
  | case2 n h ih =>
    rw [natDumpChars]
    simp only [h, dite_false]
    unfold parseNatChars at *
    rw [List.foldl_append, ih, List.foldl_cons, List.foldl_nil,
      (digitChar_spec (n % 10) (Nat.mod_lt n (by omega))).2]
    omega

lemma takeWhile_all_append {p : Char → Bool} (ds rest : List Char)
    (hall : ds.all p = true)
    (hrest : match rest with | [] => True | c :: _ => p c = false) :
    (ds ++ rest).takeWhile p = ds ∧ (ds ++ rest).drop ds.length = rest := by
  refine ⟨?_, List.drop_left ds rest⟩
  induction ds with
  | nil =>
    simp only [List.nil_append, List.takeWhile]
    cases rest with
    | nil => rfl
    | cons c cs => simp [List.takeWhile, hrest]
  | cons d ds ih =>
    simp only [List.all_cons, Bool.and_eq_true] at hall
    simp [List.takeWhile, hall.1, ih hall.2]

lemma parseNum_natDump (m : Nat) (rest : List Char) (hrest : noDigitHead rest) :
    parseNum (natDumpChars m ++ rest) = some (.num (m : Int), rest) := by
  have hne := natDumpChars_ne_nil m
  have hall := natDumpChars_all_digit m
  have htw := takeWhile_all_append (p := Char.isDigit) (natDumpChars m) rest hall
    (by cases rest with
        | nil => trivial
        | cons r rs => exact hrest)
  obtain ⟨c, cs, hcons⟩ := List.exists_cons_of_ne_nil hne
  have hcdig : c.isDigit = true := by
    have h := hall
    rw [hcons] at h
    simp only [List.all_cons, Bool.and_eq_true] at h
    exact h.1
  have hcne : c ≠ '-' := by
    intro hc
    rw [hc] at hcdig
    exact absurd hcdig (by decide)
  have h1 : (c :: (cs ++ rest)).takeWhile Char.isDigit = c :: cs := by
    have h := htw.1
    rw [hcons] at h
    simpa using h
  have h2 : (c :: (cs ++ rest)).drop (c :: cs).length = rest := by
    have h := htw.2
    rw [hcons] at h
    simp only [List.cons_append] at h
    exact h
  rw [hcons]
  show parseNum (c :: (cs ++ rest)) = _
  simp only [parseNum]
  rw [if_neg hcne, h1]
  simp only [List.isEmpty_cons, Bool.false_eq_true, if_false]
  rw [h2, ← hcons, parseNatChars_natDump]

lemma parseNum_intDump (n : Int) (rest : List Char) (hrest : noDigitHead rest) :
    parseNum (intDumpChars n ++ rest) = some (.num n, rest) := by
  by_cases hneg : n < 0
  · unfold intDumpChars
    rw [if_pos hneg, List.cons_append]
    have hne := natDumpChars_ne_nil n.natAbs
    have hall := natDumpChars_all_digit n.natAbs
    have htw := takeWhile_all_append (p := Char.isDigit) (natDumpChars n.natAbs) rest hall
      (by cases rest with
          | nil => trivial
          | cons r rs => exact hrest)
    show parseNum ('-' :: (natDumpChars n.natAbs ++ rest)) = _
    simp only [parseNum]
    rw [if_pos trivial, htw.1]
    simp only [List.isEmpty_iff, hne, if_false]
    rw [htw.2, parseNatChars_natDump]
    have hAbs : -((n.natAbs : Nat) : Int) = n := by omega
    rw [hAbs]
  · unfold intDumpChars
    rw [if_neg hneg]
    have := parseNum_natDump n.toNat rest hrest
    rwa [Int.toNat_of_nonneg (by omega)] at this

lemma hexVal_hexDigitChar : ∀ d, d < 16 → hexVal (hexDigitChar d) = some d := by decide

lemma parseStrChars_quote (cs : List Char) : parseStrChars ('"' :: cs) = some ([], cs) := by
  rw [parseStrChars.eq_def]
  simp

lemma parseStrChars_esc (e u : Char) (cs : List Char) (he : e ≠ 'u')
    (hu : unescChar e = some u) :
    parseStrChars ('\\' :: e :: cs) = (parseStrChars cs).map fun p => (u :: p.1, p.2) := by
  rw [parseStrChars.eq_def]
  simp only [reduceIte, reduceCtorEq, if_neg he, hu]
  rfl

lemma parseStrChars_other (c : Char) (cs : List Char) (h1 : c ≠ '"') (h2 : c ≠ '\\') :
    parseStrChars (c :: cs) = (parseStrChars cs).map fun p => (c :: p.1, p.2) := by
  rw [parseStrChars.eq_def]
  simp only [h1, h2, if_false]

lemma parseStrChars_u (x : Nat) (cs : List Char) (hx : x < 32) :
    parseStrChars ('\\' :: 'u' :: '0' :: '0' ::
        hexDigitChar (x / 16) :: hexDigitChar (x % 16) :: cs) =
      (parseStrChars cs).map fun p => (Char.ofNat x :: p.1, p.2) := by
  rw [parseStrChars.eq_def]
  simp only [reduceIte, reduceCtorEq]
  rw [show hexVal '0' = some 0 from by decide,
    hexVal_hexDigitChar (x / 16) (by omega),
    hexVal_hexDigitChar (x % 16) (by omega)]
  simp only [Option.some_bind]
  rw [if_pos (Or.inl (by omega : 0 * 4096 + 0 * 256 + x / 16 * 16 + x % 16 < 55296))]
  have hcode : 0 * 4096 + 0 * 256 + x / 16 * 16 + x % 16 = x := by omega
  rw [hcode, if_neg (show ¬('\\' = '"') from by decide)]

lemma parseStrChars_escape (cs rest : List Char) :
    parseStrChars (escape cs ++ '"' :: rest) = some (cs, rest) := by
  induction cs with
  | nil =>
    show parseStrChars ('"' :: rest) = _
    exact parseStrChars_quote rest
  | cons c cs ih =>
    show parseStrChars ((escChar c ++ escape cs) ++ '"' :: rest) = _
    rw [List.append_assoc]
    unfold escChar
    by_cases h1 : c = '"'
    · rw [if_pos h1, h1]
      show parseStrChars ('\\' :: '"' :: (escape cs ++ '"' :: rest)) = _
      rw [parseStrChars_esc '"' '"' _ (by decide) (by decide), ih]
      rfl
    · rw [if_neg h1]
      by_cases h2 : c = '\\'
      · rw [if_pos h2, h2]
        show parseStrChars ('\\' :: '\\' :: (escape cs ++ '"' :: rest)) = _
        rw [parseStrChars_esc '\\' '\\' _ (by decide) (by decide), ih]
        rfl
      · rw [if_neg h2]
        by_cases h3 : c = Char.ofNat 8
        · rw [if_pos h3, h3]
          show parseStrChars ('\\' :: 'b' :: (escape cs ++ '"' :: rest)) = _
          rw [parseStrChars_esc 'b' (Char.ofNat 8) _ (by decide) (by decide), ih]
          rfl
        · rw [if_neg h3]
          by_cases h4 : c = Char.ofNat 9
          · rw [if_pos h4, h4]
            show parseStrChars ('\\' :: 't' :: (escape cs ++ '"' :: rest)) = _
            rw [parseStrChars_esc 't' (Char.ofNat 9) _ (by decide) (by decide), ih]
            rfl
          · rw [if_neg h4]
            by_cases h5 : c = Char.ofNat 10
            · rw [if_pos h5, h5]
              show parseStrChars ('\\' :: 'n' :: (escape cs ++ '"' :: rest)) = _
              rw [parseStrChars_esc 'n' (Char.ofNat 10) _ (by decide) (by decide), ih]
              rfl
            · rw [if_neg h5]
              by_cases h6 : c = Char.ofNat 12
              · rw [if_pos h6, h6]
                show parseStrChars ('\\' :: 'f' :: (escape cs ++ '"' :: rest)) = _
                rw [parseStrChars_esc 'f' (Char.ofNat 12) _ (by decide) (by decide), ih]
                rfl
              · rw [if_neg h6]
                by_cases h7 : c = Char.ofNat 13
                · rw [if_pos h7, h7]
                  show parseStrChars ('\\' :: 'r' :: (escape cs ++ '"' :: rest)) = _
                  rw [parseStrChars_esc 'r' (Char.ofNat 13) _ (by decide) (by decide), ih]
                  rfl
                · rw [if_neg h7]
                  by_cases h8 : c.toNat < 32
                  · rw [if_pos h8]
                    show parseStrChars ('\\' :: 'u' :: '0' :: '0' ::
                      hexDigitChar (c.toNat / 16) :: hexDigitChar (c.toNat % 16) ::
                      (escape cs ++ '"' :: rest)) = _
                    rw [parseStrChars_u c.toNat _ h8, ih, Char.ofNat_toNat]
                    rfl
                  · rw [if_neg h8]
                    show parseStrChars (c :: (escape cs ++ '"' :: rest)) = _
                    rw [parseStrChars_other c _ h1 h2, ih]
                    rfl

mutual
/-- Recursion budget sufficient for `parseVal` to read back `jdumpChars j`. -/
def jfuel : J → Nat
  | .null => 1
  | .bool _ => 1
  | .num _ => 1
  | .str _ => 1
  | .arr .nil => 1
  | .arr (.cons x xs) => 1 + efuel (.cons x xs)
  | .obj .nil => 1
  | .obj (.cons k v xs) => 1 + ofuel (.cons k v xs)

def efuel : JList → Nat
  | .nil => 0
  | .cons x xs => 1 + max (jfuel x) (efuel xs)

def ofuel : JObj → Nat
  | .nil => 0
  | .cons _ v xs => 1 + max (jfuel v) (ofuel xs)
end

lemma jdumpChars_ne_nil (j : J) : jdumpChars j ≠ [] := by
  cases j with
  | null => simp [jdumpChars]
  | bool b => cases b <;> simp [jdumpChars]
  | num n =>
    unfold jdumpChars intDumpChars
    split
    · simp
    · exact natDumpChars_ne_nil _
  | str s => simp [jdumpChars]
  | arr xs => cases xs <;> simp [jdumpChars]
  | obj xs => cases xs <;> simp [jdumpChars]

/-- The first character a dumped value can start with is never a closing
bracket (used to route the nonempty-array/object branches). -/
lemma jdumpChars_head_not_close (j : J) (c : Char) (tl : List Char)
    (h : jdumpChars j = c :: tl) : c ≠ ']' ∧ c ≠ '}' := by
  cases j with
  | null => rw [jdumpChars] at h; injection h with h1 _; rw [← h1]; decide
  | bool b =>
    cases b <;> rw [jdumpChars] at h <;> injection h with h1 _ <;> rw [← h1] <;> decide
  | num n =>
    unfold jdumpChars intDumpChars at h
    split at h
    · injection h with h1 _; rw [← h1]; decide
    · have hall := natDumpChars_all_digit n.toNat
      rw [h] at hall
      simp only [List.all_cons, Bool.and_eq_true] at hall
      have := hall.1
      constructor <;> intro hc <;> rw [hc] at this <;> exact absurd this (by decide)
  | str s => rw [jdumpChars] at h; injection h with h1 _; rw [← h1]; decide
  | arr xs =>
    cases xs <;> rw [jdumpChars] at h <;> injection h with h1 _ <;> rw [← h1] <;> decide
  | obj xs =>
    cases xs <;> rw [jdumpChars] at h <;> injection h with h1 _ <;> rw [← h1] <;> decide

lemma jfuel_pos (j : J) : 1 ≤ jfuel j := by
  cases j with
  | null => exact le_refl 1
  | bool b => exact le_refl 1
  | num n => exact le_refl 1
  | str s => exact le_refl 1
  | arr xs => cases xs <;> simp [jfuel]
  | obj xs => cases xs <;> simp [jfuel]

mutual
/-- The parser reads back exactly what the serializer wrote, leaving any
non-digit-led suffix untouched, at any budget at least `jfuel j`. -/
theorem parseVal_dump (j : J) (fuel : Nat) (rest : List Char)
    (hfuel : jfuel j ≤ fuel) (hrest : noDigitHead rest) :
    parseVal fuel (jdumpChars j ++ rest) = some (j, rest) := by
  cases fuel with
  | zero => exact absurd (le_trans (jfuel_pos j) hfuel) (by omega)
  | succ fuel =>
    cases j with
    | null =>
      show parseVal (fuel + 1) ('n' :: 'u' :: 'l' :: 'l' :: rest) = _
      rw [parseVal.eq_def]
      simp only []
      simp
    | bool b =>
      cases b with
      | true =>
        show parseVal (fuel + 1) ('t' :: 'r' :: 'u' :: 'e' :: rest) = _
        rw [parseVal.eq_def]
        simp only []
        simp
      | false =>
        show parseVal (fuel + 1) ('f' :: 'a' :: 'l' :: 's' :: 'e' :: rest) = _
        rw [parseVal.eq_def]
        simp only []
        simp
    | num n =>
      show parseVal (fuel + 1) (intDumpChars n ++ rest) = some (J.num n, rest)
      have hne : intDumpChars n ≠ [] := by
        unfold intDumpChars
        split
        · simp
        · exact natDumpChars_ne_nil _
      obtain ⟨c, tl, hcons⟩ := List.exists_cons_of_ne_nil hne
      have hc : c = '-' ∨ c.isDigit = true := by
        unfold intDumpChars at hcons
        split at hcons
        · left
          injection hcons with h1 _
          exact h1.symm
        · right
          have hall := natDumpChars_all_digit n.toNat
          rw [hcons] at hall
          simp only [List.all_cons, Bool.and_eq_true] at hall
          exact hall.1
      have hnot : c ≠ 'n' ∧ c ≠ 't' ∧ c ≠ 'f' ∧ c ≠ '"' ∧ c ≠ '[' ∧ c ≠ '{' := by
        rcases hc with hc | hc
        · rw [hc]
          exact ⟨by decide, by decide, by decide, by decide, by decide, by decide⟩
        · refine ⟨?_, ?_, ?_, ?_, ?_, ?_⟩ <;> intro hx <;> rw [hx] at hc <;>
            exact absurd hc (by decide)
      have hp := parseNum_intDump n rest hrest
      rw [hcons, List.cons_append] at hp ⊢
      rw [parseVal.eq_def]
      simp only []
      rw [if_neg hnot.1, if_neg hnot.2.1, if_neg hnot.2.2.1,
        if_neg hnot.2.2.2.1, if_neg hnot.2.2.2.2.1, if_neg hnot.2.2.2.2.2]
      exact hp
    | str s =>
      show parseVal (fuel + 1) ('"' :: ((escape s.data ++ ['"']) ++ rest)) = _
      rw [show (escape s.data ++ ['"']) ++ rest = escape s.data ++ '"' :: rest from by simp]
      rw [parseVal.eq_def]
      simp only []
      simp only [reduceIte, reduceCtorEq]
      rw [parseStrChars_escape]
      rfl
    | arr xs =>
      cases xs with
      | nil =>
        show parseVal (fuel + 1) ('[' :: ']' :: rest) = _
        rw [parseVal.eq_def]
        simp only []
        simp
      | cons x tl =>
        show parseVal (fuel + 1)
          ('[' :: ((jdumpChars x ++ jdumpElems tl ++ [']']) ++ rest)) = _
        rw [show (jdumpChars x ++ jdumpElems tl ++ [']']) ++ rest =
          jdumpChars x ++ jdumpElems tl ++ (']' :: rest) from by simp]
        have hfe : efuel (.cons x tl) ≤ fuel := by
          have h : jfuel (J.arr (.cons x tl)) = 1 + efuel (.cons x tl) := rfl
          omega
        have helems := parseElems_dump x tl fuel rest hfe
        obtain ⟨c, ctl, hcons⟩ := List.exists_cons_of_ne_nil (jdumpChars_ne_nil x)
        have hclose := jdumpChars_head_not_close x c ctl hcons
        rw [hcons] at helems ⊢
        rw [show (c :: ctl) ++ jdumpElems tl ++ (']' :: rest) =
          c :: (ctl ++ jdumpElems tl ++ (']' :: rest)) from by simp]
        rw [parseVal.eq_def]
        simp only []
        simp only [reduceIte, reduceCtorEq]
        rw [if_neg hclose.1]
        rw [show c :: (ctl ++ jdumpElems tl ++ (']' :: rest)) =
          (c :: ctl) ++ jdumpElems tl ++ (']' :: rest) from by simp]
        rw [helems]
        rfl
    | obj xs =>
      cases xs with
      | nil =>
        show parseVal (fuel + 1) ('{' :: '}' :: rest) = _
        rw [parseVal.eq_def]
        simp only []
        simp
      | cons k v tl =>
        show parseVal (fuel + 1)
          ('{' :: (('"' :: (escape k.data ++ ['"', ':'] ++ jdumpChars v ++
            jdumpMembers tl ++ ['}'])) ++ rest)) = _
        have hfo : ofuel (.cons k v tl) ≤ fuel := by
          have h : jfuel (J.obj (.cons k v tl)) = 1 + ofuel (.cons k v tl) := rfl
          omega
        have hmem := parseMembers_dump k v tl fuel rest hfo
        rw [show ('"' :: (escape k.data ++ ['"', ':'] ++ jdumpChars v ++
            jdumpMembers tl ++ ['}'])) ++ rest =
          '"' :: (escape k.data ++ '"' :: ':' ::
            (jdumpChars v ++ jdumpMembers tl ++ ('}' :: rest))) from by simp]
        rw [parseVal.eq_def]
        simp only []
        simp only [reduceIte, reduceCtorEq]
        rw [hmem]
        rfl
termination_by sizeOf j

/-- `parseElems` reads back a dumped nonempty element list, stopping at the
closing bracket. -/
theorem parseElems_dump (x : J) (xs : JList) (fuel : Nat) (rest : List Char)
    (hfuel : efuel (.cons x xs) ≤ fuel) :
    parseElems fuel (jdumpChars x ++ jdumpElems xs ++ (']' :: rest)) =
      some (JList.cons x xs, ']' :: rest) := by
  cases fuel with
  | zero =>
    exfalso
    unfold efuel at hfuel
    omega
  | succ fuel =>
    have hfx : jfuel x ≤ fuel := by
      unfold efuel at hfuel
      have h := Nat.le_max_left (jfuel x) (efuel xs)
      omega
    rw [parseElems.eq_def]
    simp only []
    cases xs with
    | nil =>
      rw [show jdumpElems .nil = [] from rfl, List.append_nil]
      rw [show jdumpChars x ++ (']' :: rest) = jdumpChars x ++ (']' :: rest) from rfl]
      rw [parseVal_dump x fuel (']' :: rest) hfx (by show (']').isDigit = false; decide)]
      rfl
    | cons y ys =>
      have hfy : efuel (.cons y ys) ≤ fuel := by
        have hu : efuel (JList.cons x (JList.cons y ys)) =
            1 + max (jfuel x) (efuel (JList.cons y ys)) := rfl
        rw [hu] at hfuel
        have h2 := Nat.le_max_right (jfuel x) (efuel (JList.cons y ys))
        omega
      rw [show jdumpElems (.cons y ys) = ',' :: (jdumpChars y ++ jdumpElems ys) from rfl]
      rw [show jdumpChars x ++ (',' :: (jdumpChars y ++ jdumpElems ys)) ++ (']' :: rest) =
        jdumpChars x ++ (',' :: (jdumpChars y ++ jdumpElems ys ++ (']' :: rest)))
        from by simp]
      rw [parseVal_dump x fuel _ hfx (by show (',').isDigit = false; decide)]
      simp only [Option.some_bind]
      rw [parseElems_dump y ys fuel rest hfy]
      rfl
termination_by 1 + sizeOf x + sizeOf xs

/-- `parseMembers` reads back a dumped nonempty member list, stopping at the
closing brace. -/
theorem parseMembers_dump (k : String) (v : J) (xs : JObj) (fuel : Nat)
    (rest : List Char) (hfuel : ofuel (.cons k v xs) ≤ fuel) :
    parseMembers fuel ('"' :: (escape k.data ++ '"' :: ':' ::
        (jdumpChars v ++ jdumpMembers xs ++ ('}' :: rest)))) =
      some (JObj.cons k v xs, '}' :: rest) := by
  cases fuel with
  | zero =>
    exfalso
    unfold ofuel at hfuel
    omega
  | succ fuel =>
    have hfv : jfuel v ≤ fuel := by
      unfold ofuel at hfuel
      have h := Nat.le_max_left (jfuel v) (ofuel xs)
      omega
    rw [parseMembers.eq_def]
    simp only []
    rw [parseStrChars_escape]
    simp only [Option.some_bind]
    cases xs with
    | nil =>
      rw [show jdumpMembers .nil = [] from rfl, List.append_nil]
      rw [parseVal_dump v fuel ('}' :: rest) hfv (by show ('}').isDigit = false; decide)]
      rfl
    | cons k2 v2 ys =>
      have hfy : ofuel (.cons k2 v2 ys) ≤ fuel := by
        have hu : ofuel (JObj.cons k v (JObj.cons k2 v2 ys)) =
            1 + max (jfuel v) (ofuel (JObj.cons k2 v2 ys)) := rfl
        rw [hu] at hfuel
        have h2 := Nat.le_max_right (jfuel v) (ofuel (JObj.cons k2 v2 ys))
        omega
      rw [show jdumpMembers (.cons k2 v2 ys) =
        ',' :: ('"' :: (escape k2.data ++ ['"', ':'] ++ jdumpChars v2 ++
          jdumpMembers ys)) from rfl]
      rw [show jdumpChars v ++ (',' :: ('"' :: (escape k2.data ++ ['"', ':'] ++
          jdumpChars v2 ++ jdumpMembers ys))) ++ ('}' :: rest) =
        jdumpChars v ++ (',' :: ('"' :: (escape k2.data ++ '"' :: ':' ::
          (jdumpChars v2 ++ jdumpMembers ys ++ ('}' :: rest))))) from by simp]
      rw [parseVal_dump v fuel _ hfv (by show (',').isDigit = false; decide)]
      simp only [Option.some_bind]
      rw [parseMembers_dump k2 v2 ys fuel rest hfy]
      rfl
termination_by 1 + sizeOf v + sizeOf xs
end

mutual
/-- The required budget never exceeds the dumped length. -/
theorem jfuel_le_len (j : J) : jfuel j ≤ (jdumpChars j).length := by
  cases j with
  | null => simp [jfuel, jdumpChars]
  | bool b => cases b <;> simp [jfuel, jdumpChars]
  | num n =>
    have h := List.length_pos.mpr (jdumpChars_ne_nil (J.num n))
    have hj : jfuel (J.num n) = 1 := rfl
    omega
  | str s => simp [jfuel, jdumpChars]
  | arr xs =>
    cases xs with
    | nil => simp [jfuel, jdumpChars]
    | cons x tl =>
      have hb := efuel_bound x tl
      have hj : jfuel (J.arr (.cons x tl)) = 1 + efuel (.cons x tl) := rfl
      have hd : (jdumpChars (J.arr (.cons x tl))).length =
          1 + ((jdumpChars x).length + ((jdumpElems tl).length + 1)) := by
        simp [jdumpChars]
        omega
      omega
  | obj xs =>
    cases xs with
    | nil => simp [jfuel, jdumpChars]
    | cons k v tl =>
      have hb := ofuel_bound k v tl
      have hj : jfuel (J.obj (.cons k v tl)) = 1 + ofuel (.cons k v tl) := rfl
      have hd : (jdumpChars (J.obj (.cons k v tl))).length =
          1 + (1 + ((escape k.data).length + (2 + ((jdumpChars v).length +
            ((jdumpMembers tl).length + 1))))) := by
        simp [jdumpChars]
        omega
      omega
termination_by sizeOf j

theorem efuel_bound (x : J) (xs : JList) :
    efuel (.cons x xs) ≤ (jdumpChars x).length + (jdumpElems xs).length + 1 := by
  cases xs with
  | nil =>
    have hx := jfuel_le_len x
    have he : efuel (JList.cons x .nil) = 1 + max (jfuel x) 0 := rfl
    have hm : max (jfuel x) 0 = jfuel x := Nat.max_zero _
    have hd : (jdumpElems JList.nil).length = 0 := rfl
    omega
  | cons y ys =>
    have hx := jfuel_le_len x
    have hy := efuel_bound y ys
    have he : efuel (JList.cons x (.cons y ys)) =
        1 + max (jfuel x) (efuel (.cons y ys)) := rfl
    have hd : (jdumpElems (JList.cons y ys)).length =
        1 + ((jdumpChars y).length + (jdumpElems ys).length) := by
      simp [jdumpElems]
      omega
    have hmax1 := Nat.le_max_left (jfuel x) (efuel (.cons y ys))
    have hmax2 := Nat.le_max_right (jfuel x) (efuel (.cons y ys))
    have hmle : max (jfuel x) (efuel (.cons y ys)) ≤
        (jdumpChars x).length + ((jdumpChars y).length + (jdumpElems ys).length + 1) := by
      apply Nat.max_le.mpr
      constructor
      · omega
      · omega
    omega
termination_by 1 + sizeOf x + sizeOf xs

theorem ofuel_bound (k : String) (v : J) (xs : JObj) :
    ofuel (.cons k v xs) ≤ (jdumpChars v).length + (jdumpMembers xs).length + 1 := by
  cases xs with
  | nil =>
    have hv := jfuel_le_len v
    have ho : ofuel (JObj.cons k v .nil) = 1 + max (jfuel v) 0 := rfl
    have hm : max (jfuel v) 0 = jfuel v := Nat.max_zero _
    have hd : (jdumpMembers JObj.nil).length = 0 := rfl
    omega
  | cons k2 v2 ys =>
    have hv := jfuel_le_len v
    have hy := ofuel_bound k2 v2 ys
    have ho : ofuel (JObj.cons k v (.cons k2 v2 ys)) =
        1 + max (jfuel v) (ofuel (.cons k2 v2 ys)) := rfl
    have hd : (jdumpMembers (JObj.cons k2 v2 ys)).length =
        1 + (1 + ((escape k2.data).length + (2 + ((jdumpChars v2).length +
          (jdumpMembers ys).length)))) := by
      simp [jdumpMembers]
      omega
    have hmle : max (jfuel v) (ofuel (.cons k2 v2 ys)) ≤
        (jdumpChars v).length + ((jdumpMembers (JObj.cons k2 v2 ys)).length) := by
      apply Nat.max_le.mpr
      constructor
      · omega
      · omega
    omega
termination_by 1 + sizeOf v + sizeOf xs
end

/-- The modelled `json` codec round-trips: parsing a compact dump returns
the original tree. -/
theorem jparse_jdump (j : J) : jparse (jdump j) = some j := by
  have hlen : jfuel j ≤ (jdumpChars j).length + 1 :=
    le_trans (jfuel_le_len j) (by omega)
  have h := parseVal_dump j ((jdumpChars j).length + 1) [] hlen trivial
  rw [List.append_nil] at h
  show (match parseVal (((jdumpChars j) : List Char).length + 1) (jdumpChars j) with
    | some (j, []) => some j
    | _ => none) = some j
  rw [h]

/-! ## UTF-8 codec (models `str.encode("utf-8")` / `bytes.decode("utf-8")`) -/

def utf8EncodeChar (c : Char) : List Nat :=
  let n := c.toNat
  if n < 0x80 then [n]
  else if n < 0x800 then [0xC0 + n / 64, 0x80 + n % 64]
  else if n < 0x10000 then [0xE0 + n / 4096, 0x80 + n / 64 % 64, 0x80 + n % 64]
  else [0xF0 + n / 262144, 0x80 + n / 4096 % 64, 0x80 + n / 64 % 64, 0x80 + n % 64]

def utf8Encode (s : String) : List Nat :=
  (s.data.map utf8EncodeChar).flatten

/-- Whether a byte is a UTF-8 continuation byte, and its payload. -/
def utf8Cont (b : Nat) : Bool := 0x80 ≤ b && b < 0xC0

/-- UTF-8 decoding (strict, as Python's default error handler): rejects
stray continuation bytes, truncated sequences, surrogates and
out-of-range code points; overlong-form rejection is not modelled. -/
def utf8Decode : List Nat → Option (List Char)
  | [] => some []
  | b :: rest =>
    if b < 0x80 then
      (utf8Decode rest).map fun cs => Char.ofNat b :: cs
    else if 0xC2 ≤ b ∧ b < 0xE0 then
      match rest with
      | b2 :: rest' =>
        if utf8Cont b2 then
          (utf8Decode rest').map fun cs =>
            Char.ofNat ((b - 0xC0) * 64 + (b2 - 0x80)) :: cs
        else none
      | _ => none
    else if 0xE0 ≤ b ∧ b < 0xF0 then
      match rest with
      | b2 :: b3 :: rest' =>
        if utf8Cont b2 && utf8Cont b3 then
          let n := (b - 0xE0) * 4096 + (b2 - 0x80) * 64 + (b3 - 0x80)
          if 0xD800 ≤ n ∧ n ≤ 0xDFFF then none
          else (utf8Decode rest').map fun cs => Char.ofNat n :: cs
        else none
      | _ => none
    else if 0xF0 ≤ b ∧ b < 0xF5 then
      match rest with
      | b2 :: b3 :: b4 :: rest' =>
        if utf8Cont b2 && utf8Cont b3 && utf8Cont b4 then
          let n := (b - 0xF0) * 262144 + (b2 - 0x80) * 4096 +
            (b3 - 0x80) * 64 + (b4 - 0x80)
          if n < 0x110000 then
            (utf8Decode rest').map fun cs => Char.ofNat n :: cs
          else none
        else none
      | _ => none
    else none

/-- `bytes.decode("utf-8")`. -/
def pyDecodeUtf8 (b : List Nat) : Option String :=
  (utf8Decode b).map fun cs => ⟨cs⟩

/-! ## `JsonData` (`wbtn/_json_data.py`) and the open value domain -/

/-- The mutually exclusive `_data` / `_raw` states of `JsonData` (the
`_raw` slot holds a `str` normally, but `load_value` can also hand it the
`bytes` a jsonb column returns, hence the third form). -/
inductive JStore where
  | data (j : J)
  | raw (s : String)
  | rawBytes (b : List Nat)
deriving Repr

/-- The `conversion` attribute of `JsonData` is typed
`Literal["json", "jsonb"]`. -/
inductive JConv where
  | json
  | jsonb
deriving DecidableEq, Repr

/-- `JsonData`: a store plus its `conversion` attribute. -/
structure JsonRep where
  store : JStore
  conversion : JConv
deriving Repr

/-- `JsonData.loaded` (`self._raw is None`). -/
def jsonLoaded (r : JsonRep) : Bool :=
  match r.store with
  | .data _ => true
  | _ => false

/-- `JsonData.dump()`: the cached raw form verbatim (string or bytes), or
the compact encoding of the materialized value. -/
def jsonDataDump (r : JsonRep) : Sum String (List Nat) :=
  match r.store with
  | .data j => .inl (jdump j)
  | .raw s => .inl s
  | .rawBytes b => .inr b

/-- `JsonData.load()` denotationally: the materialized value, or the parse
of the raw form (`json.loads`, which decodes bytes as UTF-8 first);
`none` models a raised `JSONDecodeError`/`UnicodeDecodeError`. -/
def jload (r : JsonRep) : Option J :=
  match r.store with
  | .data j => some j
  | .raw s => jparse s
  | .rawBytes b => (pyDecodeUtf8 b).bind jparse

/-- Python `float`: an opaque carrier.  No modelled code path computes
with floats — they are only moved and compared for identity — so the
representation is a bare token. -/
structure PyFloat where
  bits : Nat
deriving DecidableEq, Repr

/-- The open value domain `ValueType = None | bool | int | float | str |
bytes | JsonData` of `wbtn/_base.py` (paths never reach the conversion
functions — the managers dump them to strings first). -/
inductive Value where
  | vnone
  | vbool (b : Bool)
  | vint (n : Int)
  | vfloat (f : PyFloat)
  | vstr (s : String)
  | vbytes (b : List Nat)
  | vjson (r : JsonRep)
deriving Repr

/-! ## Value Conversion Engine (`wbtn/conversion.py`) -/

/-- `_get_conversion`: match order as in the source — `JsonData` (both
conversions produce tag `"json"`), `bool` (before the untagged primitives:
a Python `bool` is an `int`, the explicit case keeps it distinguishable),
`None`, then the primitive tags only under `primitive_conversion`.  The
`"unsupported type"` branch is unreachable on the modelled domain: every
constructor of `Value` has a case. -/
def getConversion (v : Value) (primitiveConversion : Bool) : Option String :=
  match v with
  | .vjson _ => some "json"
  | .vbool _ => some "bool"
  | .vnone => some "null"
  | .vstr _ => if primitiveConversion then some "str" else none
  | .vbytes _ => if primitiveConversion then some "bytes" else none
  | .vint _ => if primitiveConversion then some "int" else none
  | .vfloat _ => if primitiveConversion then some "float" else none

/-- `get_primitive_conversion`. -/
def getPrimitiveConversion (v : Value) : Option String :=
  getConversion v true

/-- `_get_query`: the SQL placeholder template for a conversion tag. -/
def getQuery (conversion : Option String) (castPrimitive : Bool) :
    Except PyErr String :=
  match conversion with
  | none => .ok "?"
  | some c =>
    if c = "json" then .ok "json(?)"
    else if c = "jsonb" then .ok "jsonb(?)"
    else if c = "null" then .ok "?"
    else if ¬castPrimitive then .ok "?"
    else if c = "str" then .ok "CAST(? AS TEXT)"
    else if c = "bytes" then .ok "CAST(? AS BLOB)"
    else if c = "int" then .ok "CAST(? AS INTEGER)"
    else if c = "float" then .ok "CAST(? AS REAL)"
    else if c = "bool" then .ok "CAST(? AS INTEGER)"
    else .error (.unknownQueryConversion c)

/-- `_dump_value`: a `JsonData` dumps to its raw text (or bytes), all
other values pass through. -/
def dumpValue (v : Value) : Value :=
  match v with
  | .vjson r =>
    match jsonDataDump r with
    | .inl s => .vstr s
    | .inr b => .vbytes b
  | _ => v

/-- `get_conversion_query_value`.  The `conversion` parameter models the
`_NOTSET` sentinel as `none`: `some c` is an explicitly supplied tag (the
sources never pass an explicit `None`). -/
def getConversionQueryValue (v : Value) (provided : Option String)
    (primitiveConversion : Bool) :
    Except PyErr (Option String × String × Value) :=
  match provided with
  | none =>
    (getQuery (getConversion v primitiveConversion) false).map fun q =>
      (getConversion v primitiveConversion, q, dumpValue v)
  | some c =>
    (getQuery (some c) true).map fun q => (some c, q, dumpValue v)

/-- The tail of `load_value`'s ordered match: the strict-mode arms and the
final mismatch error, entered when none of the leading arms matched.
`("int", int())` accepts a `bool` because Python's `bool` is an `int`. -/
def loadValueTail (c : String) (orig : Value) (check : Bool) :
    Except PyErr Value :=
  if ¬check then .ok orig
  else if c = "str" then
    match orig with
    | .vstr _ => .ok orig
    | _ => .error .convTypeMismatch
  else if c = "int" then
    match orig with
    | .vint _ => .ok orig
    | .vbool _ => .ok orig
    | _ => .error .convTypeMismatch
  else if c = "float" then
    match orig with
    | .vfloat _ => .ok orig
    | _ => .error .convTypeMismatch
  else if c = "bytes" then
    match orig with
    | .vbytes _ => .ok orig
    | _ => .error .convTypeMismatch
  else .error .convTypeMismatch

/-- `load_value`: the reverse conversion.  Ordered as in the source: no
tag passes the stored primitive through, `"null"` always yields `None`,
`"json"`/`"jsonb"` wrap text or bytes in a deferred payload without
parsing (`JsonData.from_raw`, default conversion `"json"`), `"bool"`
coerces an integer (a Python `bool` is itself an `int`, so `bool` input
also matches), and everything else falls to `loadValueTail`. -/
def loadValue (conversion : Option String) (orig : Value) (check : Bool) :
    Except PyErr Value :=
  match conversion with
  | none => .ok orig
  | some c =>
    if c = "null" then .ok .vnone
    else if c = "json" ∨ c = "jsonb" then
      match orig with
      | .vstr s => .ok (.vjson ⟨.raw s, .json⟩)
      | .vbytes b => .ok (.vjson ⟨.rawBytes b, .json⟩)
      | _ => loadValueTail c orig check
    else if c = "bool" then
      match orig with
      | .vbool b => .ok (.vbool b)
      | .vint n => .ok (.vbool (decide (n ≠ 0)))
      | _ => loadValueTail c orig check
    else loadValueTail c orig check

/-- `_dump_bytes_value`: total on the modelled domain (the `"Invalid
type"` branch is unreachable — every `Value` constructor has an arm).
`float` formatting (`str(value)`) is the caller-supplied `floatRepr`. -/
def dumpBytesValueCore (floatRepr : PyFloat → String) (v : Value) :
    Sum String (List Nat) :=
  match v with
  | .vnone => .inl ""
  | .vbool true => .inl "1"
  | .vbool false => .inl "0"
  | .vjson r => jsonDataDump r
  | .vstr s => .inl s
  | .vbytes b => .inr b
  | .vint n => .inl ⟨intDumpChars n⟩
  | .vfloat f => .inl (floatRepr f)

/-- `dump_bytes_value`: encode a string result as UTF-8, pass bytes
through. -/
def dumpBytesValue (floatRepr : PyFloat → String) (v : Value) : List Nat :=
  match dumpBytesValueCore floatRepr v with
  | .inl s => utf8Encode s
  | .inr b => b

/-- `int(raw_bytes)`: ASCII digits with an optional sign (surrounding
whitespace and underscores accepted by Python are not modelled). -/
def pyParseIntBytes (b : List Nat) : Option Int :=
  match b with
  | 0x2D :: ds =>
    if ds ≠ [] ∧ ds.all (fun d => decide (0x30 ≤ d) && decide (d ≤ 0x39)) then
      some (-(ds.foldl (fun a d => 10 * a + (d - 0x30)) 0 : Nat))
    else none
  | ds =>
    if ds ≠ [] ∧ ds.all (fun d => decide (0x30 ≤ d) && decide (d ≤ 0x39)) then
      some ((ds.foldl (fun a d => 10 * a + (d - 0x30)) 0 : Nat))
    else none

/-- `load_bytes_value`: the byte-oriented decoder.  Ordered as in the
source: a missing tag always raises, `"null"`/`"str"`/`"bytes"`/`"bool"`
decode unconditionally, then the `not primitive_conversion` guard returns
the raw bytes for every remaining tag, then `"int"`/`"float"` coerce, and
only then comes the unknown-tag error.  `float(raw_bytes)` is the
caller-supplied `parseFloat` oracle (text-to-float is outside the
model). -/
def loadBytesValue (parseFloat : List Nat → Option PyFloat)
    (conversion : Option String) (raw : List Nat) (primitiveConversion : Bool) :
    Except PyErr Value :=
  match conversion with
  | none => .error .convMissing
  | some c =>
    if c = "null" then .ok .vnone
    else if c = "str" then
      match pyDecodeUtf8 raw with
      | some s => .ok (.vstr s)
      | none => .error (.external "UnicodeDecodeError")
    else if c = "bytes" then .ok (.vbytes raw)
    else if c = "bool" then .ok (.vbool (decide (raw ≠ [0x30]) && decide (raw ≠ [])))
    else if ¬primitiveConversion then .ok (.vbytes raw)
    else if c = "int" then
      match pyParseIntBytes raw with
      | some n => .ok (.vint n)
      | none => .error (.external "int-parse")
    else if c = "float" then
      match parseFloat raw with
      | some f => .ok (.vfloat f)
      | none => .error (.external "float-parse")
    else .error (.invalidConversion c)

/-! ## Python `==` on parsed JSON values, and `JsonData.__eq__` -/

def olookup (k : String) : JObj → Option J
  | .nil => none
  | .cons k2 v tl => if k2 == k then some v else olookup k tl

def olen : JObj → Nat
  | .nil => 0
  | .cons _ _ tl => 1 + olen tl

mutual
/-- Python `==` on values returned by `json.loads`: `True == 1` and
`False == 0` (a Python `bool` is an `int`); dicts compare by key lookup
(JSON objects have unique keys). -/
def jeqPy : J → J → Bool
  | .null, .null => true
  | .bool a, .bool b => a == b
  | .bool a, .num m => (if a then (1 : Int) else 0) == m
  | .num n, .bool b => n == (if b then (1 : Int) else 0)
  | .num n, .num m => n == m
  | .str a, .str b => a == b
  | .arr xs, .arr ys => jeqList xs ys
  | .obj xs, .obj ys => olen xs == olen ys && osub xs ys
  | _, _ => false
termination_by a _ => sizeOf a

def jeqList : JList → JList → Bool
  | .nil, .nil => true
  | .cons x xs, .cons y ys => jeqPy x y && jeqList xs ys
  | _, _ => false
termination_by xs _ => sizeOf xs

def osub : JObj → JObj → Bool
  | .nil, _ => true
  | .cons k v tl, ys =>
    (match olookup k ys with
     | some w => jeqPy v w
     | none => false) && osub tl ys
termination_by xs _ => sizeOf xs
end

/-- The shortcut condition's comparison in `JsonData.__eq__` compares
`self.stored` WITH ITSELF (`self.stored == self.stored` in the source),
which is true for every store. -/
def storedSelfEq (a : JsonRep) : Bool :=
  match a.store with
  | .data _ => true
  | .raw s => s == s
  | .rawBytes b => b == b

/-- `JsonData.__eq__`, verbatim: if both sides are in raw state (and the
self-comparison holds, which it always does) the result is `True` without
parsing; otherwise both sides are loaded and compared.  `none` models an
exception escaping from `load()`. -/
def jsonDataEq (a b : JsonRep) : Option Bool :=
  if ¬jsonLoaded a ∧ ¬jsonLoaded b ∧ storedSelfEq a then some true
  else
    match jload a, jload b with
    | some x, some y => some (jeqPy x y)
    | _, _ => none

/-! ## `WebtoonMediaManger` / `WebtoonMedia` (`wbtn/_managers/_media.py`)

The SQLite statements the manager issues are external: the `INSERT ...
RETURNING id` outcome enters as an oracle (`insert`), the `SELECT` of
`_load` as a fetch function.  The filesystem surface (`mkdir`,
`write_bytes`, `unlink`) enters as an oracle of per-call outcomes; the
state of the one file at the target path is threaded as
`Option (List Nat)` (absent, or present with its byte content). -/

/-- The columns of a `media` row (`WebtoonMediaData`). -/
structure MediaData where
  mediaId : Nat
  episodeNo : Int
  mediaNo : Int
  purpose : Option String
  mediaType : Option String
  name : Option String
  state : Option String
  conversion : Option String
  path : Option PPath
  data : Value
  addedAt : Nat
deriving Repr

/-- The lazy handle `WebtoonMedia`: `_media_id` and `_media` slots. -/
structure WebtoonMedia where
  mediaId : Option Nat
  media : Option MediaData
deriving Repr

/-- `WebtoonMedia.__init__`: exactly one of `media` / `media_id` must be
given, and a bare id must come with its webtoon. -/
def mediaInit (mediaId : Option Nat) (hasWebtoon : Bool)
    (media : Option MediaData) : Except PyErr WebtoonMedia :=
  if !(media.isNone ^^ mediaId.isNone) then
    .error (.valueError "Only one of media or media_id and webtoon can be provided.")
  else if media.isNone && (mediaId.isNone ^^ !hasWebtoon) then
    .error (.valueError "media_id must be provided with webtoon.")
  else .ok ⟨mediaId, media⟩

/-- The two-state invariant: exactly one slot populated. -/
def mediaInv (h : WebtoonMedia) : Prop :=
  (h.mediaId.isSome ∧ h.media.isNone) ∨ (h.mediaId.isNone ∧ h.media.isSome)

/-- `WebtoonMedia.load`: return the record (fetching by id when
unresolved; `fetch` is the database `SELECT`, `none` meaning the row is
missing and `_load` raises); `store_media` replaces the handle's state
with the resolved record. -/
def mediaLoad (fetch : Nat → Option MediaData) (h : WebtoonMedia)
    (storeMedia : Bool) : Except PyErr (Option MediaData × WebtoonMedia) :=
  match h.mediaId with
  | none => .ok (h.media, h)
  | some i =>
    match fetch i with
    | none => .error (.valueError "Can't find media with given media_id.")
    | some m =>
      if storeMedia then .ok (some m, ⟨none, some m⟩) else .ok (some m, h)

/-- `WebtoonMedia.media_id`: read the id (out of the record when
resolved — an `AttributeError` if neither slot is populated); `store_id`
replaces the handle's state with the bare id. -/
def mediaIdOp (h : WebtoonMedia) (storeId : Bool) :
    Except PyErr (Nat × WebtoonMedia) :=
  match h.mediaId with
  | some i => .ok (i, h)
  | none =>
    match h.media with
    | none => .error (.valueError "AttributeError on self._media")
    | some m =>
      if storeId then .ok (m.mediaId, ⟨some m.mediaId, none⟩)
      else .ok (m.mediaId, h)

/-- `WebtoonMediaManger.add`: dump the path through the path layer (or
take the inline value, refusing an explicit conversion there), run the
value through `get_conversion_query_value`, then execute the `INSERT`
(external - its outcome is the `insert` oracle). -/
def addMedia (pm : PathMgrState) (ctx : PathCtx)
    (pathOrData : Sum PPath Value) (conversion : Option String)
    (insert : Except PyErr Nat) : Except PyErr (Nat × PathMgrState) :=
  match pathOrData with
  | .inl p =>
    match dumpPath pm ctx p with
    | .error e => .error e
    | .ok (_raw, pm') =>
      match getConversionQueryValue .vnone conversion false with
      | .error e => .error e
      | .ok _ => insert.map fun i => (i, pm')
  | .inr v =>
    if conversion.isSome then .error .convWithData
    else
      match getConversionQueryValue v none false with
      | .error e => .error e
      | .ok _ => insert.map fun i => (i, pm)

/-- Per-call outcomes of the filesystem surface (`none` = the call
succeeds). -/
structure FsOracle where
  mkdirErr : Option PyErr
  writeErr : Option PyErr
  unlinkErr : Option PyErr
deriving Repr

/-- `WebtoonMediaManger.add_path_or_data`: in self-contained mode, store
inline and never touch the filesystem; otherwise create parents (unless
`mkdir=False`), write the dumped value to `path`, then insert a path+tag
row — and on any insert-side exception, `path.unlink()` and re-raise.
The `unlink` call is NOT guarded: when it raises, its own exception
propagates instead of the original one (Python replaces the in-flight
exception).  Returns the call's outcome and the final state of the file
at `path`. -/
def addPathOrData (floatRepr : PyFloat → String) (pm : PathMgrState)
    (ctx : PathCtx) (path : PPath) (data : Value) (conversion : Option String)
    (mkdir : Bool) (fileBefore : Option (List Nat)) (fs : FsOracle)
    (insert : Except PyErr Nat) :
    Except PyErr Nat × Option (List Nat) :=
  if pm.selfContained then
    ((addMedia pm ctx (.inr data) none insert).map (·.1), fileBefore)
  else
    match (if mkdir then fs.mkdirErr else none) with
    | some e => (.error e, fileBefore)
    | none =>
      match fs.writeErr with
      | some e => (.error e, fileBefore)
      | none =>
        -- `path.write_bytes(dump_bytes_value(data))` succeeded
        let written := some (dumpBytesValue floatRepr data)
        let conv := match conversion with
          | some c => some c
          | none => getPrimitiveConversion data
        match addMedia pm ctx (.inl path) conv insert with
        | .ok (i, _) => (.ok i, written)
        | .error e =>
          match fs.unlinkErr with
          | none => (.error e, none)
          | some u => (.error u, written)

/-! ## The claims -/

/-- C10: in `load_bytes_value` with primitive coercion disabled, every
conversion tag other than `"null"`, `"str"`, `"bytes"` and `"bool"` —
including tags outside the fixed set — returns the raw bytes unchanged,
and the unknown-conversion-tag error is reachable only when primitive
coercion is requested. -/
theorem C10_byte_decoder_fallback :
    (∀ (parseFloat : List Nat → Option PyFloat) (c : String) (raw : List Nat),
      c ≠ "null" → c ≠ "str" → c ≠ "bytes" → c ≠ "bool" →
      loadBytesValue parseFloat (some c) raw false = .ok (.vbytes raw)) ∧
    (∀ (parseFloat : List Nat → Option PyFloat) (conversion : Option String)
      (raw : List Nat) (pc : Bool) (t : String),
      loadBytesValue parseFloat conversion raw pc = .error (.invalidConversion t) →
      pc = true) := by
  constructor
  · intro pf c raw h1 h2 h3 h4
    unfold loadBytesValue
    simp only []
    rw [if_neg h1, if_neg h2, if_neg h3, if_neg h4, if_pos (by decide)]
  · intro pf conv raw pc t h
    match conv with
    | none => exact absurd h (by simp [loadBytesValue])
    | some c =>
      by_cases hpc : pc = true
      · exact hpc
      · exfalso
        have hpcf : pc = false := by
          cases pc
          · rfl
          · exact absurd rfl hpc
        subst hpcf
        unfold loadBytesValue at h
        simp only [] at h
        by_cases e1 : c = "null"
        · rw [if_pos e1] at h
          exact absurd h (by simp)
        · rw [if_neg e1] at h
          by_cases e2 : c = "str"
          · rw [if_pos e2] at h
            cases hd : pyDecodeUtf8 raw <;> rw [hd] at h <;> exact absurd h (by simp)
          · rw [if_neg e2] at h
            by_cases e3 : c = "bytes"
            · rw [if_pos e3] at h
              exact absurd h (by simp)
            · rw [if_neg e3] at h
              by_cases e4 : c = "bool"
              · rw [if_pos e4] at h
                exact absurd h (by simp)
              · rw [if_neg e4, if_pos (by decide)] at h
                exact absurd h (by simp)

/-- C10 witness: the tag `"json"` (not in the byte codec's tag set) with
coercion off returns the raw bytes; concretely evaluated. -/
theorem C10_witness :
    loadBytesValue (fun _ => none) (some "json") [1, 2] false = .ok (.vbytes [1, 2]) :=
  C10_byte_decoder_fallback.1 (fun _ => none) "json" [1, 2]
    (by decide) (by decide) (by decide) (by decide)

/-- C9: a `WebtoonMedia` handle is always in exactly one of the states
`Unresolved{id}` / `Resolved{record}`: a successful construction
establishes the invariant, constructing with both or neither slot raises,
and `load` / `media_id` (with or without their state-replacing flag)
preserve it. -/
theorem C9_handle_invariant :
    (∀ (mid : Option Nat) (hw : Bool) (m : Option MediaData) (h : WebtoonMedia),
      mediaInit mid hw m = .ok h → mediaInv h) ∧
    (∀ (hw : Bool) (i : Nat) (m : MediaData),
      mediaInit (some i) hw (some m) =
        .error (.valueError "Only one of media or media_id and webtoon can be provided.")) ∧
    (∀ (hw : Bool),
      mediaInit none hw none =
        .error (.valueError "Only one of media or media_id and webtoon can be provided.")) ∧
    (∀ (fetch : Nat → Option MediaData) (h : WebtoonMedia) (b : Bool)
      (m : Option MediaData) (h' : WebtoonMedia),
      mediaInv h → mediaLoad fetch h b = .ok (m, h') → mediaInv h') ∧
    (∀ (h : WebtoonMedia) (b : Bool) (i : Nat) (h' : WebtoonMedia),
      mediaInv h → mediaIdOp h b = .ok (i, h') → mediaInv h') := by
  refine ⟨?_, ?_, ?_, ?_, ?_⟩
  · intro mid hw m h hok
    cases mid <;> cases m <;> cases hw <;>
      simp [mediaInit] at hok <;> rw [← hok] <;> simp [mediaInv]
  · intro hw i m
    cases hw <;> rfl
  · intro hw
    cases hw <;> rfl
  · intro fetch h b m h' hinv hok
    match hh : h.mediaId with
    | none =>
      unfold mediaLoad at hok
      rw [hh] at hok
      simp only [] at hok
      injection hok with hok
      injection hok with _ hok2
      rw [← hok2]
      exact hinv
    | some i =>
      unfold mediaLoad at hok
      rw [hh] at hok
      simp only [] at hok
      cases hf : fetch i with
      | none => rw [hf] at hok; exact absurd hok (by simp)
      | some md =>
        rw [hf] at hok
        cases b with
        | false =>
          simp only [if_false, Bool.false_eq_true] at hok
          injection hok with hok
          injection hok with _ hok2
          rw [← hok2]
          exact hinv
        | true =>
          simp only [if_true] at hok
          injection hok with hok
          injection hok with _ hok2
          rw [← hok2]
          right
          exact ⟨rfl, rfl⟩
  · intro h b i h' hinv hok
    match hh : h.mediaId with
    | some j =>
      unfold mediaIdOp at hok
      rw [hh] at hok
      simp only [] at hok
      injection hok with hok
      injection hok with _ hok2
      rw [← hok2]
      exact hinv
    | none =>
      unfold mediaIdOp at hok
      rw [hh] at hok
      simp only [] at hok
      cases hm : h.media with
      | none => rw [hm] at hok; exact absurd hok (by simp)
      | some md =>
        rw [hm] at hok
        cases b with
        | false =>
          simp only [if_false, Bool.false_eq_true] at hok
          injection hok with hok
          injection hok with _ hok2
          rw [← hok2]
          exact hinv
        | true =>
          simp only [if_true] at hok
          injection hok with hok
          injection hok with _ hok2
          rw [← hok2]
          left
          exact ⟨rfl, rfl⟩

/-- C9 witness: a handle built from a bare id is `Unresolved`, resolving
it with state replacement yields a `Resolved` handle — evaluated on a
concrete record and fetch function. -/
theorem C9_witness :
    mediaInv ⟨some 3, none⟩ ∧
    (mediaInit (some 3) true none = .ok ⟨some 3, none⟩ → mediaInv ⟨some 3, none⟩) ∧
    mediaInv ⟨none, some ⟨3, 1, 1, none, none, none, none, none, none, .vnone, 0⟩⟩ :=
  ⟨C9_handle_invariant.1 (some 3) true none ⟨some 3, none⟩ rfl,
   fun _ => C9_handle_invariant.1 (some 3) true none ⟨some 3, none⟩ rfl,
   C9_handle_invariant.2.2.2.1
     (fun _ => some ⟨3, 1, 1, none, none, none, none, none, none, .vnone, 0⟩)
     ⟨some 3, none⟩ true
     (some ⟨3, 1, 1, none, none, none, none, none, none, .vnone, 0⟩)
     ⟨none, some ⟨3, 1, 1, none, none, none, none, none, none, .vnone, 0⟩⟩
     (Or.inl ⟨rfl, rfl⟩) rfl⟩

/-- C7 (code bug): the raw-state shortcut of `JsonData.__eq__` compares
`self.stored` with itself, so ANY two raw instances compare equal — here
`JsonData(raw="1") == JsonData(raw="2")` evaluates to `True` even though
the two raw strings parse to different JSON values (`1` and `2`), against
both the spec and the source's own comment ("if both are raw and the
strings are exactly the same"). -/
theorem C7_raw_equality_shortcut :
    jsonDataEq ⟨.raw "1", .json⟩ ⟨.raw "2", .json⟩ = some true ∧
    jload ⟨.raw "1", .json⟩ = some (J.num 1) ∧
    jload ⟨.raw "2", .json⟩ = some (J.num 2) ∧
    jeqPy (J.num 1) (J.num 2) = false := by
  refine ⟨rfl, rfl, rfl, by simp [jeqPy]⟩

/-- C3 (code bug): the suggested-base-directory fallback is inverted in
`_get_base_path` — with `fallback_base_path = True` an absolute (or
non-child relative) suggestion RAISES, and with the flag `False` it
silently falls back to the container file's directory: the exact opposite
of the flag's docstring and of the test suite's expectations.  Evaluated
at an absolute suggestion `/s` and at a relative suggestion `..` escaping
the file directory `/w/d`. -/
theorem C3_fallback_inverted :
    getBasePath ⟨none, true, false, true, true⟩
      ⟨⟨true, ["w"]⟩, ⟨true, ["w"]⟩, some ⟨true, ["s"]⟩⟩ none =
      .error .pathSuggestAbsolute ∧
    getBasePath ⟨none, true, false, false, true⟩
      ⟨⟨true, ["w"]⟩, ⟨true, ["w"]⟩, some ⟨true, ["s"]⟩⟩ none =
      .ok ⟨true, ["w"]⟩ ∧
    getBasePath ⟨none, true, false, true, true⟩
      ⟨⟨true, ["w"]⟩, ⟨true, ["w", "d"]⟩, some ⟨false, [".."]⟩⟩ none =
      .error .pathSuggestNotChild ∧
    getBasePath ⟨none, true, false, false, true⟩
      ⟨⟨true, ["w"]⟩, ⟨true, ["w", "d"]⟩, some ⟨false, [".."]⟩⟩ none =
      .ok ⟨true, ["w", "d"]⟩ := by
  refine ⟨rfl, rfl, rfl, rfl⟩

/-- C6 (code bug): a writable bypass open of a PRE-EXISTING container
does not force-write the magic marker — the `application_id` write is
guarded by `if not self.existed`, so a foreign marker (here `0x12345678`)
survives a bypass open unchanged, against the manager docstring's "with
bypass ... the application_id is initialized to 0x5742544e" (only the
schema version is force-written). -/
theorem C6_bypass_marker_not_rewritten :
    configurePragma true false ⟨false, true, none⟩ ⟨none, none⟩
      ⟨0x12345678, 500⟩ = (⟨0x12345678, SCHEMA_VERSION⟩, none) ∧
    (0x12345678 : Nat) ≠ APPLICATION_ID ∧
    configurePragma false false ⟨false, true, none⟩ ⟨none, none⟩
      ⟨0, 0⟩ = (⟨APPLICATION_ID, SCHEMA_VERSION⟩, none) := by
  refine ⟨rfl, by decide, rfl⟩

/-- C5: the future-format gate.  For an existing container with a valid
marker whose stored major exceeds the running major (and integrity
checking not bypassed): when `WBTN_FORCE_OPEN_FUTURE_FORMAT` is unset or
`"0"`, the open fails as future format with the header untouched; when it
is set to any other string (and the journal-mode setting is valid), the
open succeeds and the stored version is left unchanged. -/
theorem C5_future_format_gate (s : ConnSettings) (env : Env) (h : DbHeader)
    (inMemory : Bool)
    (hbp : s.bypass = false)
    (hid : h.applicationId = APPLICATION_ID)
    (hmaj : SCHEMA_VERSION / 1000 < h.userVersion / 1000) :
    (env.future.getD "0" = "0" →
      configurePragma true inMemory s env h = (h, some .schemaFuture)) ∧
    (env.future.getD "0" ≠ "0" → setJournalMode inMemory s.journalMode = .ok () →
      configurePragma true inMemory s env h = (h, none)) := by
  have hver : SCHEMA_VERSION < h.userVersion := by
    unfold SCHEMA_VERSION at hmaj ⊢
    omega
  have hvz : h.userVersion ≠ 0 := by
    unfold SCHEMA_VERSION at hver
    omega
  have happ : checkApplicationId true h = .ok () := by
    unfold checkApplicationId
    rw [if_pos rfl, if_neg (by rw [hid]; unfold APPLICATION_ID; omega),
      if_neg (by rw [hid]; simp)]
  constructor
  · intro henv
    have hchk : checkUserVersion true s.readOnly env h = .error .schemaFuture := by
      unfold checkUserVersion
      rw [if_pos rfl, if_neg hvz, if_pos ⟨hmaj, henv⟩]
    unfold configurePragma
    rw [hbp, if_pos (show ¬(false = true) from by decide), happ]
    simp only []
    rw [hchk]
  · intro henv hjm
    have hchk : checkUserVersion true s.readOnly env h = .ok h := by
      unfold checkUserVersion
      rw [if_pos rfl, if_neg hvz,
        if_neg (show ¬(SCHEMA_VERSION / 1000 < h.userVersion / 1000 ∧
          env.future.getD "0" = "0") from fun hcon => henv hcon.2),
        if_neg (show ¬(SCHEMA_VERSION / 1000 > h.userVersion / 1000 ∧
          env.past.getD "0" = "0") from fun hcon => by omega)]
    have hwp : writePhase true false h = h := by
      unfold writePhase
      rw [if_neg (show ¬(false = true) from by decide),
        show markerWrite true h = h from rfl,
        show setFileUserVersion h SCHEMA_VERSION = .error .schemaDowngrade from by
          unfold setFileUserVersion
          rw [if_pos hver]]
    unfold configurePragma
    rw [hbp, if_pos (show ¬(false = true) from by decide), happ]
    simp only []
    rw [hchk]
    simp only []
    cases hro : s.readOnly with
    | true => rw [if_pos rfl]
    | false =>
      rw [if_neg (show ¬(false = true) from by decide), hjm, hwp]

/-- C5 witness: a container at version 2000 under running schema version
1000: the open fails without the override and succeeds, version
untouched, with `WBTN_FORCE_OPEN_FUTURE_FORMAT=1`. -/
theorem C5_witness :
    configurePragma true false ⟨false, false, none⟩ ⟨none, none⟩
      ⟨APPLICATION_ID, 2000⟩ = (⟨APPLICATION_ID, 2000⟩, some .schemaFuture) ∧
    configurePragma true false ⟨false, false, none⟩ ⟨some "1", none⟩
      ⟨APPLICATION_ID, 2000⟩ = (⟨APPLICATION_ID, 2000⟩, none) :=
  ⟨(C5_future_format_gate ⟨false, false, none⟩ ⟨none, none⟩ ⟨APPLICATION_ID, 2000⟩
      false rfl rfl (by decide)).1 rfl,
   (C5_future_format_gate ⟨false, false, none⟩ ⟨some "1", none⟩ ⟨APPLICATION_ID, 2000⟩
      false rfl rfl (by decide)).2 (by decide) rfl⟩

/-- C4 counterexample: a successful writable bypass open of a container
stored at version 2000 rewrites the version down to the current 1000 —
"every later open (including bypass opens) leaves it ≥ N" is false as
stated. -/
theorem C4_counterexample :
    configurePragma true false ⟨false, true, none⟩ ⟨none, none⟩
      ⟨APPLICATION_ID, 2000⟩ = (⟨APPLICATION_ID, SCHEMA_VERSION⟩, none) ∧
    SCHEMA_VERSION < 2000 :=
  ⟨rfl, by decide⟩

lemma checkUserVersion_mono (existed ro : Bool) (env : Env) (h h1 : DbHeader)
    (hchk : checkUserVersion existed ro env h = .ok h1) :
    h.userVersion ≤ h1.userVersion := by
  unfold checkUserVersion at hchk
  split_ifs at hchk <;>
    first
      | (injection hchk with hh; rw [← hh]; simp only []; omega)
      | (injection hchk with hh; rw [← hh])

lemma markerWrite_userVersion (existed : Bool) (h : DbHeader) :
    (markerWrite existed h).userVersion = h.userVersion := by
  unfold markerWrite
  split <;> rfl

lemma writePhase_mono (existed : Bool) (h : DbHeader) :
    h.userVersion ≤ (writePhase existed false h).userVersion := by
  unfold writePhase
  rw [if_neg (show ¬(false = true) from by decide)]
  have hv := markerWrite_userVersion existed h
  cases hset : setFileUserVersion (markerWrite existed h) SCHEMA_VERSION with
  | error e =>
    simp only []
    omega
  | ok h' =>
    unfold setFileUserVersion at hset
    split_ifs at hset with hgt
    injection hset with hh
    rw [← hh]
    simp only []
    omega

/-- C4 (amended): the stored schema version is monotone across every
non-bypass open — including read-only opens, failed opens, and opens
forced by either environment override (a bypass open instead force-writes
the current version, which `C4_counterexample` shows can be lower) — and
the explicit version setter refuses any downgrade with a schema error,
leaving the version unchanged, while a successful set never lowers it. -/
theorem C4_amended_monotonic :
    (∀ (existed inMemory : Bool) (s : ConnSettings) (env : Env) (h : DbHeader),
      s.bypass = false →
      h.userVersion ≤ (configurePragma existed inMemory s env h).1.userVersion) ∧
    (∀ (h : DbHeader) (v : Nat), v < h.userVersion →
      setFileUserVersion h v = .error .schemaDowngrade) ∧
    (∀ (h : DbHeader) (v : Nat) (h' : DbHeader),
      setFileUserVersion h v = .ok h' → h.userVersion ≤ h'.userVersion) := by
  refine ⟨?_, ?_, ?_⟩
  · intro existed inMemory s env h hbp
    unfold configurePragma
    rw [hbp, if_pos (show ¬(false = true) from by decide)]
    cases happ : checkApplicationId existed h with
    | error e => exact le_refl _
    | ok u =>
      cases u
      cases hchk : checkUserVersion existed s.readOnly env h with
      | error e => exact le_refl _
      | ok h1 =>
        have hm := checkUserVersion_mono existed s.readOnly env h h1 hchk
        simp only []
        by_cases hro : s.readOnly = true
        · rw [if_pos hro]
          exact hm
        · rw [if_neg hro]
          cases hjm : setJournalMode inMemory s.journalMode with
          | error e => exact le_trans hm (writePhase_mono existed h1)
          | ok u2 =>
            cases u2
            exact le_trans hm (writePhase_mono existed h1)
  · intro h v hlt
    unfold setFileUserVersion
    rw [if_pos hlt]
  · intro h v h' hok
    unfold setFileUserVersion at hok
    split_ifs at hok with hgt
    injection hok with hh
    rw [← hh]
    simp only []
    omega

/-- C4 witness: the monotonicity part applied to a concrete non-bypass
open of a version-500 container (upgraded to 1000 ≥ 500), and the setter
part applied to a concrete downgrade attempt. -/
theorem C4_witness :
    (500 : Nat) ≤ (configurePragma true false ⟨false, false, none⟩ ⟨none, none⟩
      ⟨APPLICATION_ID, 500⟩).1.userVersion ∧
    setFileUserVersion ⟨APPLICATION_ID, 1000⟩ 500 = .error .schemaDowngrade :=
  ⟨C4_amended_monotonic.1 true false ⟨false, false, none⟩ ⟨none, none⟩
      ⟨APPLICATION_ID, 500⟩ rfl,
   C4_amended_monotonic.2.1 ⟨APPLICATION_ID, 1000⟩ 500 (by decide)⟩

lemma leads_append_drop : ∀ (xs ys : List String), leads xs ys = true →
    xs ++ ys.drop xs.length = ys := by
  intro xs
  induction xs with
  | nil => intro ys _; simp
  | cons x xs ih =>
    intro ys hl
    cases ys with
    | nil => exact absurd hl (by simp [leads])
    | cons y ys' =>
      unfold leads at hl
      rw [Bool.and_eq_true] at hl
      have hx : x = y := of_decide_eq_true hl.1
      rw [List.cons_append, List.length_cons, List.drop_succ_cons, hx, ih ys' hl.2]

/-- C2 counterexample: with base `/b` initialized and the working
directory at `/w`, storing the RELATIVE path `f` fails (the source
resolves relative input against the working directory, not the base
directory, so `/w/f` escapes `/b`); and for the absolute,
non-normalized path `/b/x/../f` — resolvable under `/b` — the
store/load round trip returns the resolved `/b/f`, not the original
path.  Both refute the claim's "relative input is resolved against the
base directory" and its unrestricted `load(store(p)) == p`. -/
theorem C2_counterexample :
    dumpPath ⟨some ⟨true, ["b"]⟩, true, false, true, true⟩
      ⟨⟨true, ["w"]⟩, ⟨true, ["w"]⟩, none⟩ ⟨false, ["f"]⟩ =
      .error .pathValueError ∧
    dumpPath ⟨some ⟨true, ["b"]⟩, true, false, true, true⟩
      ⟨⟨true, ["w"]⟩, ⟨true, ["w"]⟩, none⟩ ⟨true, ["b", "x", "..", "f"]⟩ =
      .ok (⟨false, ["f"]⟩, ⟨some ⟨true, ["b"]⟩, true, false, true, true⟩) ∧
    loadStr ⟨some ⟨true, ["b"]⟩, true, false, true, true⟩
      ⟨⟨true, ["w"]⟩, ⟨true, ["w"]⟩, none⟩ ⟨false, ["f"]⟩ =
      .ok (⟨true, ["b", "f"]⟩, ⟨some ⟨true, ["b"]⟩, true, false, true, true⟩) ∧
    (⟨true, ["b", "f"]⟩ : PPath) ≠ ⟨true, ["b", "x", "..", "f"]⟩ := by
  refine ⟨rfl, rfl, rfl, by decide⟩

/-- C2 (amended): with the base directory initialized to an absolute `B`
and self-contained mode off — (a) every absolute, normalized path inside
`B` stores as its `B`-relative remainder (conversion enabled) and loads
back to exactly itself; (b) an absolute input fails when
absolute-to-relative conversion is disabled; (c) with conversion enabled
an absolute path whose resolution is not inside `B` fails; (d) the
stored form is always relative; (e) a RELATIVE input is resolved against
the process working directory — not the base directory — before the
containment check, so its round trip returns the cwd-resolved path. -/
theorem C2_amended_path_roundtrip :
    (∀ (st : PathMgrState) (ctx : PathCtx) (B p : PPath),
      st.selfContained = false → st.basePath = some B →
      st.convertAbsolute = true → B.absolute = true →
      p.absolute = true → normComps p.comps = p.comps →
      leads B.comps p.comps = true →
      dumpPath st ctx p = .ok (⟨false, p.comps.drop B.comps.length⟩, st) ∧
      loadStr st ctx ⟨false, p.comps.drop B.comps.length⟩ = .ok (p, st)) ∧
    (∀ (st : PathMgrState) (ctx : PathCtx) (p : PPath),
      st.convertAbsolute = false → p.absolute = true →
      dumpPath st ctx p = .error .pathAbsoluteStore) ∧
    (∀ (st : PathMgrState) (ctx : PathCtx) (B p : PPath),
      st.selfContained = false → st.basePath = some B →
      st.convertAbsolute = true → B.absolute = true →
      p.absolute = true → leads B.comps (normComps p.comps) = false →
      dumpPath st ctx p = .error .pathValueError) ∧
    (∀ (st st' : PathMgrState) (ctx : PathCtx) (p r : PPath),
      dumpPath st ctx p = .ok (r, st') → r.absolute = false) ∧
    (∀ (st : PathMgrState) (ctx : PathCtx) (B p : PPath),
      st.selfContained = false → st.basePath = some B →
      p.absolute = false →
      dumpPath st ctx p =
        match relativeTo ⟨true, normComps (ctx.cwd.comps ++ p.comps)⟩ B with
        | .error e => .error e
        | .ok r => .ok (r, st)) := by
  have hbg : ∀ (st : PathMgrState) (ctx : PathCtx) (B : PPath),
      st.selfContained = false → st.basePath = some B →
      basePathGet st ctx = .ok (B, st) := by
    intro st ctx B hsc hbase
    unfold basePathGet
    rw [if_neg (by rw [hsc]; simp), hbase]
  refine ⟨?_, ?_, ?_, ?_, ?_⟩
  · intro st ctx B p hsc hbase hca habs hpabs hnorm hleads
    have hpres : presolve ctx.cwd p = ⟨true, p.comps⟩ := by
      unfold presolve
      rw [hpabs, if_pos rfl, hnorm]
    have hrel : relativeTo (presolve ctx.cwd p) B = .ok ⟨false, p.comps.drop B.comps.length⟩ := by
      rw [hpres]
      unfold relativeTo
      rw [if_pos ⟨by rw [habs], hleads⟩]
    constructor
    · unfold dumpPath
      rw [if_neg (by rw [hca]; simp), hbg st ctx B hsc hbase]
      simp only []
      rw [hrel]
    · have hpj : pjoin B ⟨false, p.comps.drop B.comps.length⟩ = p := by
        unfold pjoin
        rw [if_neg (by simp)]
        have hjoin := leads_append_drop B.comps p.comps hleads
        cases p with
        | mk a c =>
          simp only [] at hpabs hjoin ⊢
          rw [habs, hjoin, hpabs]
      unfold loadStr
      rw [if_neg (by simp), hbg st ctx B hsc hbase]
      show Except.ok (pjoin B ⟨false, p.comps.drop B.comps.length⟩, st) = _
      rw [hpj]
  · intro st ctx p hca habs
    unfold dumpPath
    rw [if_pos ⟨by rw [habs], by rw [hca]; simp⟩]
  · intro st ctx B p hsc hbase hca habs hpabs hleads
    unfold dumpPath
    rw [if_neg (by rw [hca]; simp), hbg st ctx B hsc hbase]
    simp only []
    rw [show relativeTo (presolve ctx.cwd p) B = .error .pathValueError from by
      unfold presolve relativeTo
      rw [hpabs, if_pos rfl]
      rw [if_neg (by
        intro hcon
        rw [hleads] at hcon
        exact absurd hcon.2 (by simp))]]
  · intro st st' ctx p r hok
    unfold dumpPath at hok
    split_ifs at hok
    cases hbp : basePathGet st ctx with
    | error e =>
      rw [hbp] at hok
      exact absurd hok (by simp)
    | ok bs =>
      rw [hbp] at hok
      obtain ⟨b, st2⟩ := bs
      simp only [] at hok
      cases hrl : relativeTo (presolve ctx.cwd p) b with
      | error e =>
        rw [hrl] at hok
        exact absurd hok (by simp)
      | ok r2 =>
        rw [hrl] at hok
        unfold relativeTo at hrl
        split_ifs at hrl
        injection hrl with hr2
        injection hok with hok1
        injection hok1 with hr _
        rw [← hr, ← hr2]
  · intro st ctx B p hsc hbase hpabs
    unfold dumpPath
    rw [if_neg (by rw [hpabs]; simp), hbg st ctx B hsc hbase]
    simp only []
    rw [show presolve ctx.cwd p = ⟨true, normComps (ctx.cwd.comps ++ p.comps)⟩ from by
      unfold presolve
      rw [hpabs]
      simp]

/-- C2 witness: the round trip at base `/b`, path `/b/m/001.jpg` (stores
as `m/001.jpg`), the refusal of `/b/f` with conversion disabled, and the
escape failure for `/q/f`. -/
theorem C2_amended_witness :
    (dumpPath ⟨some ⟨true, ["b"]⟩, true, false, true, true⟩
        ⟨⟨true, ["w"]⟩, ⟨true, ["w"]⟩, none⟩ ⟨true, ["b", "m", "001.jpg"]⟩ =
      .ok (⟨false, ["m", "001.jpg"]⟩, ⟨some ⟨true, ["b"]⟩, true, false, true, true⟩) ∧
      loadStr ⟨some ⟨true, ["b"]⟩, true, false, true, true⟩
        ⟨⟨true, ["w"]⟩, ⟨true, ["w"]⟩, none⟩ ⟨false, ["m", "001.jpg"]⟩ =
      .ok (⟨true, ["b", "m", "001.jpg"]⟩, ⟨some ⟨true, ["b"]⟩, true, false, true, true⟩)) ∧
    dumpPath ⟨some ⟨true, ["b"]⟩, false, false, true, true⟩
      ⟨⟨true, ["w"]⟩, ⟨true, ["w"]⟩, none⟩ ⟨true, ["b", "f"]⟩ =
      .error .pathAbsoluteStore ∧
    dumpPath ⟨some ⟨true, ["b"]⟩, true, false, true, true⟩
      ⟨⟨true, ["w"]⟩, ⟨true, ["w"]⟩, none⟩ ⟨true, ["q", "f"]⟩ =
      .error .pathValueError :=
  ⟨C2_amended_path_roundtrip.1 ⟨some ⟨true, ["b"]⟩, true, false, true, true⟩
      ⟨⟨true, ["w"]⟩, ⟨true, ["w"]⟩, none⟩ ⟨true, ["b"]⟩ ⟨true, ["b", "m", "001.jpg"]⟩
      rfl rfl rfl rfl rfl (by decide) (by decide),
   C2_amended_path_roundtrip.2.1 ⟨some ⟨true, ["b"]⟩, false, false, true, true⟩
      ⟨⟨true, ["w"]⟩, ⟨true, ["w"]⟩, none⟩ ⟨true, ["b", "f"]⟩ rfl rfl,
   C2_amended_path_roundtrip.2.2.1 ⟨some ⟨true, ["b"]⟩, true, false, true, true⟩
      ⟨⟨true, ["w"]⟩, ⟨true, ["w"]⟩, none⟩ ⟨true, ["b"]⟩ ⟨true, ["q", "f"]⟩
      rfl rfl rfl rfl rfl (by decide)⟩

/-- C8 counterexample: when the row insert fails AND the subsequent
`path.unlink()` itself fails, the unlink's exception propagates to the
caller instead of the original insert error (the cleanup is not guarded),
and the just-written file survives — the claim's "the original insert
error propagates to the caller unchanged, with a failure of the deletion
itself not separately reported" is false as stated. -/
theorem C8_counterexample :
    addPathOrData (fun _ => "") ⟨some ⟨true, ["b"]⟩, true, false, true, true⟩
      ⟨⟨true, ["w"]⟩, ⟨true, ["w"]⟩, none⟩ ⟨true, ["b", "f"]⟩ (.vbytes [1]) none
      false none ⟨none, none, some (.external "unlink-EPERM")⟩
      (.error (.external "UNIQUE-violation")) =
      (.error (.external "unlink-EPERM"), some [1]) ∧
    PyErr.external "unlink-EPERM" ≠ PyErr.external "UNIQUE-violation" := by
  refine ⟨rfl, by decide⟩

/-- C8 (amended): in self-contained mode the value is stored inline via
`add` and the filesystem is untouched; otherwise the value is written to
the file first and, if the row insert (or anything else inside the `try`)
raises, a single unguarded `path.unlink()` runs — when the unlink
succeeds the file is gone and the ORIGINAL error propagates unchanged,
but when the unlink itself raises, the unlink's exception propagates
instead; on success the file keeps the dumped bytes. -/
theorem C8_amended_cleanup :
    (∀ (fr : PyFloat → String) (pm : PathMgrState) (ctx : PathCtx) (path : PPath)
      (data : Value) (conv : Option String) (mkdir : Bool)
      (fb : Option (List Nat)) (fs : FsOracle) (ins : Except PyErr Nat),
      pm.selfContained = true →
      addPathOrData fr pm ctx path data conv mkdir fb fs ins =
        ((addMedia pm ctx (.inr data) none ins).map (·.1), fb)) ∧
    (∀ (fr : PyFloat → String) (pm : PathMgrState) (ctx : PathCtx) (path : PPath)
      (data : Value) (conv : Option String) (mkdir : Bool)
      (fb : Option (List Nat)) (fs : FsOracle) (ins : Except PyErr Nat) (e : PyErr),
      pm.selfContained = false →
      fs.mkdirErr = none → fs.writeErr = none →
      addMedia pm ctx (.inl path)
        (match conv with
         | some c => some c
         | none => getPrimitiveConversion data) ins = .error e →
      fs.unlinkErr = none →
      addPathOrData fr pm ctx path data conv mkdir fb fs ins = (.error e, none)) ∧
    (∀ (fr : PyFloat → String) (pm : PathMgrState) (ctx : PathCtx) (path : PPath)
      (data : Value) (conv : Option String) (mkdir : Bool)
      (fb : Option (List Nat)) (fs : FsOracle) (ins : Except PyErr Nat)
      (e u : PyErr),
      pm.selfContained = false →
      fs.mkdirErr = none → fs.writeErr = none →
      addMedia pm ctx (.inl path)
        (match conv with
         | some c => some c
         | none => getPrimitiveConversion data) ins = .error e →
      fs.unlinkErr = some u →
      addPathOrData fr pm ctx path data conv mkdir fb fs ins =
        (.error u, some (dumpBytesValue fr data))) ∧
    (∀ (fr : PyFloat → String) (pm : PathMgrState) (ctx : PathCtx) (path : PPath)
      (data : Value) (conv : Option String) (mkdir : Bool)
      (fb : Option (List Nat)) (fs : FsOracle) (ins : Except PyErr Nat)
      (i : Nat) (pm2 : PathMgrState),
      pm.selfContained = false →
      fs.mkdirErr = none → fs.writeErr = none →
      addMedia pm ctx (.inl path)
        (match conv with
         | some c => some c
         | none => getPrimitiveConversion data) ins = .ok (i, pm2) →
      addPathOrData fr pm ctx path data conv mkdir fb fs ins =
        (.ok i, some (dumpBytesValue fr data))) := by
  have hmk : ∀ (mkdir : Bool) (fs : FsOracle), fs.mkdirErr = none →
      (if mkdir then fs.mkdirErr else none) = none := by
    intro mkdir fs hm
    rw [hm]
    cases mkdir <;> rfl
  refine ⟨?_, ?_, ?_, ?_⟩
  · intro fr pm ctx path data conv mkdir fb fs ins hsc
    unfold addPathOrData
    rw [if_pos hsc]
  · intro fr pm ctx path data conv mkdir fb fs ins e hsc hm hw hadd hu
    unfold addPathOrData
    rw [if_neg (by rw [hsc]; simp), hmk mkdir fs hm]
    simp only []
    rw [hw]
    simp only []
    rw [hadd]
    simp only []
    rw [hu]
  · intro fr pm ctx path data conv mkdir fb fs ins e u hsc hm hw hadd hu
    unfold addPathOrData
    rw [if_neg (by rw [hsc]; simp), hmk mkdir fs hm]
    simp only []
    rw [hw]
    simp only []
    rw [hadd]
    simp only []
    rw [hu]
  · intro fr pm ctx path data conv mkdir fb fs ins i pm2 hsc hm hw hadd
    unfold addPathOrData
    rw [if_neg (by rw [hsc]; simp), hmk mkdir fs hm]
    simp only []
    rw [hw]
    simp only []
    rw [hadd]

/-- C8 witness: the clean-cleanup path evaluated concretely — a failing
insert with a succeeding unlink removes the file and re-raises the
original error; self-contained mode stores inline and leaves the
filesystem alone. -/
theorem C8_amended_witness :
    addPathOrData (fun _ => "") ⟨some ⟨true, ["b"]⟩, true, false, true, true⟩
      ⟨⟨true, ["w"]⟩, ⟨true, ["w"]⟩, none⟩ ⟨true, ["b", "f"]⟩ (.vbytes [1]) none
      false none ⟨none, none, none⟩ (.error (.external "UNIQUE-violation")) =
      (.error (.external "UNIQUE-violation"), none) ∧
    addPathOrData (fun _ => "") ⟨some ⟨true, ["b"]⟩, true, true, true, true⟩
      ⟨⟨true, ["w"]⟩, ⟨true, ["w"]⟩, none⟩ ⟨true, ["b", "f"]⟩ (.vbytes [1]) none
      true none ⟨none, none, none⟩ (.ok 7) =
      ((addMedia ⟨some ⟨true, ["b"]⟩, true, true, true, true⟩
        ⟨⟨true, ["w"]⟩, ⟨true, ["w"]⟩, none⟩ (.inr (.vbytes [1])) none (.ok 7)).map (·.1),
        none) :=
  ⟨C8_amended_cleanup.2.1 (fun _ => "") ⟨some ⟨true, ["b"]⟩, true, false, true, true⟩
      ⟨⟨true, ["w"]⟩, ⟨true, ["w"]⟩, none⟩ ⟨true, ["b", "f"]⟩ (.vbytes [1]) none
      false none ⟨none, none, none⟩ (.error (.external "UNIQUE-violation"))
      (.external "UNIQUE-violation") rfl rfl rfl rfl rfl,
   C8_amended_cleanup.1 (fun _ => "") ⟨some ⟨true, ["b"]⟩, true, true, true, true⟩
      ⟨⟨true, ["w"]⟩, ⟨true, ["w"]⟩, none⟩ ⟨true, ["b", "f"]⟩ (.vbytes [1]) none
      true none ⟨none, none, none⟩ (.ok 7) rfl⟩

/-- Equality of converted values "with structural equality for JSON
payloads": deferred payloads are compared by their parse denotation
(`jload`), everything else by plain equality. -/
def valueStructEq (a b : Value) : Prop :=
  match a, b with
  | .vjson r1, .vjson r2 => jload r1 = jload r2
  | x, y => x = y

/-- C1: the value-conversion round trip.  For every value of the open
domain and either primitive-tagging setting, `load_value` applied to the
tag and primitive produced by `get_conversion_query_value` yields a value
structurally equal to the original; in particular `True` round-trips as
the boolean `True` under tag `"bool"`, and with primitive tagging the
integer `1` round-trips as the integer `1` under tag `"int"` — the two
remain distinguishable. -/
theorem C1_value_roundtrip :
    (∀ (v : Value) (pc : Bool),
      ∃ (conv : Option String) (q : String) (prim : Value) (v' : Value),
        getConversionQueryValue v none pc = .ok (conv, q, prim) ∧
        loadValue conv prim false = .ok v' ∧
        valueStructEq v' v) ∧
    (getConversionQueryValue (.vbool true) none false).map (fun r => r.1) =
      .ok (some "bool") ∧
    ((getConversionQueryValue (.vbool true) none false).bind fun r =>
      loadValue r.1 r.2.2 false) = .ok (.vbool true) ∧
    (getConversionQueryValue (.vint 1) none true).map (fun r => r.1) =
      .ok (some "int") ∧
    ((getConversionQueryValue (.vint 1) none true).bind fun r =>
      loadValue r.1 r.2.2 false) = .ok (.vint 1) ∧
    Value.vbool true ≠ Value.vint 1 := by
  refine ⟨?_, rfl, rfl, rfl, rfl, fun h => Value.noConfusion h⟩
  intro v pc
  cases v with
  | vnone => exact ⟨some "null", "?", .vnone, .vnone, rfl, rfl, rfl⟩
  | vbool b => exact ⟨some "bool", "?", .vbool b, .vbool b, rfl, rfl, rfl⟩
  | vint n =>
    cases pc with
    | false => exact ⟨none, "?", .vint n, .vint n, rfl, rfl, rfl⟩
    | true => exact ⟨some "int", "?", .vint n, .vint n, rfl, rfl, rfl⟩
  | vfloat f =>
    cases pc with
    | false => exact ⟨none, "?", .vfloat f, .vfloat f, rfl, rfl, rfl⟩
    | true => exact ⟨some "float", "?", .vfloat f, .vfloat f, rfl, rfl, rfl⟩
  | vstr str =>
    cases pc with
    | false => exact ⟨none, "?", .vstr str, .vstr str, rfl, rfl, rfl⟩
    | true => exact ⟨some "str", "?", .vstr str, .vstr str, rfl, rfl, rfl⟩
  | vbytes b =>
    cases pc with
    | false => exact ⟨none, "?", .vbytes b, .vbytes b, rfl, rfl, rfl⟩
    | true => exact ⟨some "bytes", "?", .vbytes b, .vbytes b, rfl, rfl, rfl⟩
  | vjson r =>
    obtain ⟨store, conv⟩ := r
    cases store with
    | data j =>
      refine ⟨some "json", "json(?)", .vstr (jdump j),
        .vjson ⟨.raw (jdump j), .json⟩, rfl, rfl, ?_⟩
      show jparse (jdump j) = some j
      exact jparse_jdump j
    | raw str =>
      exact ⟨some "json", "json(?)", .vstr str, .vjson ⟨.raw str, .json⟩,
        rfl, rfl, rfl⟩
    | rawBytes b =>
      exact ⟨some "json", "json(?)", .vbytes b, .vjson ⟨.rawBytes b, .json⟩,
        rfl, rfl, rfl⟩

/-- C1 witness: the round trip instantiated at the boolean `True` and at
a materialized JSON object payload. -/
theorem C1_witness :
    (∃ (conv : Option String) (q : String) (prim : Value) (v' : Value),
      getConversionQueryValue (.vbool true) none false = .ok (conv, q, prim) ∧
      loadValue conv prim false = .ok v' ∧
      valueStructEq v' (.vbool true)) ∧
    (∃ (conv : Option String) (q : String) (prim : Value) (v' : Value),
      getConversionQueryValue
        (.vjson ⟨.data (.obj (.cons "a" (.num 1) .nil)), .json⟩) none false =
        .ok (conv, q, prim) ∧
      loadValue conv prim false = .ok v' ∧
      valueStructEq v' (.vjson ⟨.data (.obj (.cons "a" (.num 1) .nil)), .json⟩)) :=
  ⟨C1_value_roundtrip.1 (.vbool true) false,
   C1_value_roundtrip.1 (.vjson ⟨.data (.obj (.cons "a" (.num 1) .nil)), .json⟩) false⟩

end Wbtn
